import Mathlib

/-!
# RaceCraft pacing and effort-allocation engine: a shallow embedding

This file embeds the core numeric engine of `app.py` (the trail-race pacing
calculator) into Lean 4 over exact rational arithmetic, and proves or refutes
the specification's claims about it.

Conventions of the embedding:
* Python floats are modelled as `ℚ`; all arithmetic is exact.
* Python's float exponentiation `x ** beta` (used only inside the fatigue
  multiplier, with `beta ∈ {1.0, 0.95, 0.90}`) is abstracted as an explicit
  function parameter `rp : ℚ → ℚ → ℚ`; theorems quantify over `rp` (adding
  the hypotheses that real exponentiation satisfies, e.g. nonnegativity on
  positive bases), so they hold in particular for the real `**`.
* String enums (`climbing_ability`, `fitness_level`, terrain types, effort
  labels) become inductive types; the `dict.get(key, default)` lookups in the
  source are total over these types, so the defaults are baked into the match.
* Python lists of dicts become lists of structures; loops that iterate one
  list while indexing another in lockstep are embedded as simultaneous
  recursion on both lists (the theorems carry equal-length hypotheses, under
  which the two behaviours agree).
* Python's `/` raises `ZeroDivisionError` on a zero denominator while `ℚ`
  division totalises `x / 0 = 0`; a dedicated boolean function replays the
  control flow of `allocate_effort_to_target` and reports whether every
  denominator reached on the executed path is nonzero.
-/

/-- `climbing_ability` values (keys of `CLIMBING_ABILITY_PARAMS` in app.py). -/
inductive ClimbingAbility where
  | conservative
  | moderate
  | strong
  | very_strong
  | elite
deriving DecidableEq

/-- `fitness_level` values (keys of `FITNESS_LEVEL_PARAMS` in app.py). -/
inductive FitnessLevel where
  | untrained
  | recreational
  | trained
  | elite
deriving DecidableEq

/-- Terrain type values (keys of `TERRAIN_FACTORS` in app.py). -/
inductive TerrainType where
  | road
  | smooth_trail
  | dirt_road
  | rocky_runnable
  | technical
  | very_technical
  | scrambling
deriving DecidableEq

/-- Effort labels produced by the allocator (`'steady'`, `'push'`, `'protect'`). -/
inductive EffortLevel where
  | steady
  | push
  | protect
deriving DecidableEq

/-- `CLIMBING_ABILITY_PARAMS[...]['vertical_speed']` (m/h). -/
def verticalSpeedOf : ClimbingAbility → ℚ
  | .conservative => 600
  | .moderate => 800
  | .strong => 1000
  | .very_strong => 1250
  | .elite => 1500

/-- `FITNESS_LEVEL_PARAMS[...]['fop']` (Fatigue Onset Point, km-effort). -/
def fopOf : FitnessLevel → ℚ
  | .untrained => 25
  | .recreational => 75/2
  | .trained => 55
  | .elite => 75

/-- `FITNESS_LEVEL_PARAMS[...]['alpha']`. -/
def alphaOf : FitnessLevel → ℚ
  | .untrained => 12/100
  | .recreational => 10/100
  | .trained => 8/100
  | .elite => 6/100

/-- `FITNESS_LEVEL_PARAMS[...]['beta']`. -/
def betaOf : FitnessLevel → ℚ
  | .untrained => 1
  | .recreational => 1
  | .trained => 95/100
  | .elite => 90/100

/-- `TERRAIN_FACTORS` base terrain efficiency multipliers. -/
def terrainFactorOf : TerrainType → ℚ
  | .road => 95/100
  | .smooth_trail => 1
  | .dirt_road => 105/100
  | .rocky_runnable => 115/100
  | .technical => 1325/1000
  | .very_technical => 165/100
  | .scrambling => 2

/-- `TERRAIN_GRADIENT_GAMMA = 1.25`. -/
def TERRAIN_GRADIENT_GAMMA : ℚ := 125/100

/-- `TERRAIN_CLIMB_FACTOR = 0.7`. -/
def TERRAIN_CLIMB_FACTOR : ℚ := 7/10

/-- `TERRAIN_DESCENT_FACTOR = 1.0`. -/
def TERRAIN_DESCENT_FACTOR : ℚ := 1

/-- `calculate_terrain_efficiency_factor` from app.py: base terrain factor,
scaled by gradient, direction-weighted (70% on climbs, 100% on descents),
skill-discounted, clamped to at least `1.0`. -/
def calculate_terrain_efficiency_factor (terrain_type : TerrainType) (gradient : ℚ)
    (skill_level : ℚ) (is_descent : Bool) : ℚ :=
  let base_terrain_factor := terrainFactorOf terrain_type
  let gradient_scaling := 1 + TERRAIN_GRADIENT_GAMMA * |gradient|
  let scaled_terrain_factor := base_terrain_factor * gradient_scaling
  let direction_adjusted_factor :=
    if is_descent then 1 + (scaled_terrain_factor - 1) * TERRAIN_DESCENT_FACTOR
    else 1 + (scaled_terrain_factor - 1) * TERRAIN_CLIMB_FACTOR
  let skill_adjusted_factor := 1 + (direction_adjusted_factor - 1) * (1 - skill_level)
  max 1 skill_adjusted_factor

/-- C9 counterexample helper fact is stated directly on the definition below. -/
theorem terrain_factor_ge_one (tt : TerrainType) (g s : ℚ) (d : Bool) :
    1 ≤ calculate_terrain_efficiency_factor tt g s d :=
  le_max_left 1 _

/-- For terrain types whose base factor is at least that of `t1` and strictly larger
for `t2`, the terrain efficiency factor is strictly larger as well, for any
gradient and any skill level strictly below 1. -/
theorem tef_lt_of_factor_lt (t1 t2 : TerrainType) (g s : ℚ) (d : Bool)
    (h0 : 0 ≤ s) (h1 : s < 1)
    (hge : 1 ≤ terrainFactorOf t1) (hlt : terrainFactorOf t1 < terrainFactorOf t2) :
    calculate_terrain_efficiency_factor t1 g s d <
      calculate_terrain_efficiency_factor t2 g s d := by
  have hA : (1:ℚ) ≤ 1 + TERRAIN_GRADIENT_GAMMA * |g| := by
    have hg := abs_nonneg g
    unfold TERRAIN_GRADIENT_GAMMA
    nlinarith
  set A := 1 + TERRAIN_GRADIENT_GAMMA * |g| with hAdef
  set f1 := terrainFactorOf t1 with hf1
  set f2 := terrainFactorOf t2 with hf2
  have hfA : (1:ℚ) ≤ f1 * A := by nlinarith
  have hs' : (0:ℚ) < 1 - s := by linarith
  have hApos : (0:ℚ) < A := by linarith
  have hprod : (0:ℚ) ≤ (f1 * A - 1) * (1 - s) := mul_nonneg (by linarith) (le_of_lt hs')
  have hgain : (0:ℚ) < (f2 - f1) * A * (1 - s) :=
    mul_pos (mul_pos (sub_pos.mpr hlt) hApos) hs'
  cases d
  · simp only [calculate_terrain_efficiency_factor, TERRAIN_CLIMB_FACTOR,
      Bool.false_eq_true, ite_false]
    have hadj1 : (1:ℚ) ≤ 1 + (1 + (f1 * A - 1) * (7/10) - 1) * (1 - s) := by nlinarith
    have hstep : 1 + (1 + (f1 * A - 1) * (7/10) - 1) * (1 - s) <
        1 + (1 + (f2 * A - 1) * (7/10) - 1) * (1 - s) := by nlinarith
    rw [max_eq_right hadj1, max_eq_right (le_of_lt (lt_of_le_of_lt hadj1 hstep))]
    exact hstep
  · simp only [calculate_terrain_efficiency_factor, TERRAIN_DESCENT_FACTOR, ite_true]
    have hadj1 : (1:ℚ) ≤ 1 + (1 + (f1 * A - 1) * 1 - 1) * (1 - s) := by nlinarith
    have hstep : 1 + (1 + (f1 * A - 1) * 1 - 1) * (1 - s) <
        1 + (1 + (f2 * A - 1) * 1 - 1) * (1 - s) := by nlinarith
    rw [max_eq_right hadj1, max_eq_right (le_of_lt (lt_of_le_of_lt hadj1 hstep))]
    exact hstep

/-- C9 (amended): for every gradient, every direction flag and every skill level in
[0, 1), the terrain efficiency factor satisfies
`terrain_factor(scrambling) > terrain_factor(technical) > terrain_factor(smooth_trail)`,
and the smooth-trail factor at zero gradient equals `1.0`. (At `skill_level = 1`
all factors collapse to `1.0`, so the claim's closed interval `[0,1]` fails.) -/
theorem c9_terrain_ordering (g s : ℚ) (d : Bool) (h0 : 0 ≤ s) (h1 : s < 1) :
    calculate_terrain_efficiency_factor .technical g s d <
      calculate_terrain_efficiency_factor .scrambling g s d ∧
    calculate_terrain_efficiency_factor .smooth_trail g s d <
      calculate_terrain_efficiency_factor .technical g s d ∧
    calculate_terrain_efficiency_factor .smooth_trail 0 s d = 1 := by
  refine ⟨tef_lt_of_factor_lt _ _ g s d h0 h1 (by norm_num [terrainFactorOf])
      (by norm_num [terrainFactorOf]),
    tef_lt_of_factor_lt _ _ g s d h0 h1 (by norm_num [terrainFactorOf])
      (by norm_num [terrainFactorOf]), ?_⟩
  cases d <;>
    simp [calculate_terrain_efficiency_factor, terrainFactorOf, TERRAIN_GRADIENT_GAMMA,
      TERRAIN_CLIMB_FACTOR, TERRAIN_DESCENT_FACTOR]

/-- C9 counterexample: at `skill_level = 1` (which the claim's range `[0,1]` allows)
the strict ordering fails — all terrain factors collapse to `1.0`. -/
theorem c9_counterexample :
    ¬ (calculate_terrain_efficiency_factor .technical 0 1 false <
        calculate_terrain_efficiency_factor .scrambling 0 1 false) := by
  norm_num [calculate_terrain_efficiency_factor, terrainFactorOf,
    TERRAIN_GRADIENT_GAMMA, TERRAIN_CLIMB_FACTOR]

/-- C9 witness: the amended ordering at gradient `0.1`, skill `0.5`, climb direction. -/
theorem c9_terrain_ordering_witness :
    calculate_terrain_efficiency_factor .technical (1/10) (1/2) false <
      calculate_terrain_efficiency_factor .scrambling (1/10) (1/2) false ∧
    calculate_terrain_efficiency_factor .smooth_trail (1/10) (1/2) false <
      calculate_terrain_efficiency_factor .technical (1/10) (1/2) false ∧
    calculate_terrain_efficiency_factor .smooth_trail 0 (1/2) false = 1 :=
  c9_terrain_ordering (1/10) (1/2) false (by norm_num) (by norm_num)

/-- The `efficiency` piecewise curve of `calculate_vertical_speed` in app.py
(before the skill bonus), as a function of `gradient_pct = |gradient| * 100`. -/
def gradeEfficiencyBase (gradient_pct : ℚ) : ℚ :=
  if gradient_pct < 3 then 90/100
  else if gradient_pct < 6 then 90/100 + (gradient_pct - 3) / 3 * (5/100)
  else if gradient_pct ≤ 12 then 95/100 + (gradient_pct - 6) / 6 * (5/100)
  else if gradient_pct ≤ 18 then 1 - (gradient_pct - 12) / 6 * (15/100)
  else if gradient_pct ≤ 25 then 85/100 - (gradient_pct - 18) / 7 * (15/100)
  else 70/100

/-- Gradient-dependent climbing efficiency multiplier from `calculate_vertical_speed`
in app.py: the piecewise curve, plus (above 12% gradient) a skill bonus capped so
the total efficiency stays at most 1. -/
def climbEfficiency (gradient_pct skill_level : ℚ) : ℚ :=
  if gradient_pct > 12 then
    min 1 (gradeEfficiencyBase gradient_pct
      + skill_level * (5/100) * min 1 ((gradient_pct - 12) / 13))
  else gradeEfficiencyBase gradient_pct

/-- `calculate_vertical_speed` from app.py: base vertical speed (m/h) times the
gradient/skill efficiency multiplier. -/
def calculate_vertical_speed (base_vertical_speed gradient skill_level : ℚ) : ℚ :=
  base_vertical_speed * climbEfficiency (|gradient| * 100) skill_level

/-- `terrain_downhill_caps_base` from `calculate_downhill_multiplier` in app.py. -/
def terrainDownhillCapOf : TerrainType → ℚ
  | .road => 1
  | .smooth_trail => 95/100
  | .dirt_road => 90/100
  | .rocky_runnable => 80/100
  | .technical => 70/100
  | .very_technical => 60/100
  | .scrambling => 50/100

/-- `calculate_downhill_multiplier` from app.py: base multiplier by |gradient| band,
capped by a skill-raised terrain ceiling. -/
def calculate_downhill_multiplier (gradient : ℚ) (terrain_type : TerrainType)
    (skill_level : ℚ) : ℚ :=
  if gradient ≥ 0 then 1
  else
    let gradient_pct := |gradient| * 100
    let base_multiplier :=
      if gradient_pct ≤ 5 then 105/100
      else if gradient_pct ≤ 10 then 115/100
      else if gradient_pct ≤ 15 then 120/100
      else 110/100
    let base_terrain_cap := terrainDownhillCapOf terrain_type
    let skill_bonus := skill_level * (3/10) * (1 - base_terrain_cap)
    let terrain_cap := min 1 (base_terrain_cap + skill_bonus)
    1 + (base_multiplier - 1) * terrain_cap

/-- The fatigue multiplier from `adjust_pace_for_elevation` in app.py.
`rp` abstracts Python's float `**` (the exponent `betaOf` may be non-integral). -/
def fatigueMultiplier (rp : ℚ → ℚ → ℚ) (fatigue_enabled : Bool)
    (fitness_level : FitnessLevel) (cumulative_effort : ℚ) : ℚ :=
  if fatigue_enabled then
    let fop := fopOf fitness_level
    if cumulative_effort > fop then
      1 + alphaOf fitness_level * rp ((cumulative_effort - fop) / fop) (betaOf fitness_level)
    else 1
  else 1

/-- `gradient` as computed in `adjust_pace_for_elevation`:
net elevation change over distance, `0` when the distance is not positive. -/
def gradientOf (elevation_gain elevation_loss distance_km : ℚ) : ℚ :=
  if distance_km > 0 then (elevation_gain - elevation_loss) / (distance_km * 1000) else 0

/-- `horizontal_time` (minutes) in `adjust_pace_for_elevation`. -/
def horizontalTime (base_pace distance_km : ℚ) : ℚ :=
  let flat_speed_kmh := 60 / base_pace
  distance_km / flat_speed_kmh * 60

/-- `climb_time` (minutes) in `adjust_pace_for_elevation`. -/
def climbTime (elevation_gain elevation_loss distance_km : ℚ)
    (climbing_ability : ClimbingAbility) (skill_level : ℚ) : ℚ :=
  if elevation_gain > 0 then
    elevation_gain / calculate_vertical_speed (verticalSpeedOf climbing_ability)
      (gradientOf elevation_gain elevation_loss distance_km) skill_level * 60
  else 0

/-- `descent_time_savings` (minutes) in `adjust_pace_for_elevation`; the guard is
`elevation_loss > 0 and is_descent` where `is_descent = elevation_loss > elevation_gain`. -/
def descentTimeSavings (base_pace elevation_gain elevation_loss distance_km : ℚ)
    (terrain_type : TerrainType) (skill_level : ℚ) : ℚ :=
  if elevation_loss > 0 ∧ elevation_loss > elevation_gain then
    horizontalTime base_pace distance_km *
      (1 - 1 / calculate_downhill_multiplier
        (gradientOf elevation_gain elevation_loss distance_km) terrain_type skill_level)
  else 0

/-- `base_segment_time = horizontal_time + climb_time - descent_time_savings`. -/
def baseSegmentTime (base_pace elevation_gain elevation_loss distance_km : ℚ)
    (climbing_ability : ClimbingAbility) (terrain_type : TerrainType)
    (skill_level : ℚ) : ℚ :=
  horizontalTime base_pace distance_km
    + climbTime elevation_gain elevation_loss distance_km climbing_ability skill_level
    - descentTimeSavings base_pace elevation_gain elevation_loss distance_km terrain_type skill_level

/-- `pace_with_climbing` in `adjust_pace_for_elevation` (guarded by `distance_km > 0`). -/
def paceWithClimbing (base_pace elevation_gain elevation_loss distance_km : ℚ)
    (climbing_ability : ClimbingAbility) (terrain_type : TerrainType)
    (skill_level : ℚ) : ℚ :=
  if distance_km > 0 then
    baseSegmentTime base_pace elevation_gain elevation_loss distance_km
      climbing_ability terrain_type skill_level / distance_km
  else base_pace

/-- The `terrain_factor` computed inside `adjust_pace_for_elevation` (descent flag is
`elevation_loss > elevation_gain`). -/
def segmentTerrainFactor (elevation_gain elevation_loss distance_km : ℚ)
    (terrain_type : TerrainType) (skill_level : ℚ) : ℚ :=
  calculate_terrain_efficiency_factor terrain_type
    (gradientOf elevation_gain elevation_loss distance_km) skill_level
    (if elevation_loss > elevation_gain then true else false)

/-- `adjusted_segment_time = base_segment_time × terrain_factor × fatigue_multiplier
× skill_efficiency_bonus`, with `skill_efficiency_bonus = 1 - skill_level × 0.03`. -/
def adjustedSegmentTime (rp : ℚ → ℚ → ℚ)
    (base_pace elevation_gain elevation_loss distance_km cumulative_effort : ℚ)
    (climbing_ability : ClimbingAbility) (fatigue_enabled : Bool)
    (fitness_level : FitnessLevel) (terrain_type : TerrainType)
    (skill_level : ℚ) : ℚ :=
  baseSegmentTime base_pace elevation_gain elevation_loss distance_km
      climbing_ability terrain_type skill_level
    * segmentTerrainFactor elevation_gain elevation_loss distance_km terrain_type skill_level
    * fatigueMultiplier rp fatigue_enabled fitness_level cumulative_effort
    * (1 - skill_level * (3/100))

/-- The `final_pace` value of `adjust_pace_for_elevation` before the 2.5× cap is
applied (`base_pace` itself on the zero-distance early return). -/
def uncappedFinalPace (rp : ℚ → ℚ → ℚ)
    (base_pace elevation_gain elevation_loss distance_km cumulative_effort : ℚ)
    (climbing_ability : ClimbingAbility) (fatigue_enabled : Bool)
    (fitness_level : FitnessLevel) (terrain_type : TerrainType)
    (skill_level : ℚ) : ℚ :=
  if distance_km = 0 then base_pace
  else
    adjustedSegmentTime rp base_pace elevation_gain elevation_loss distance_km
      cumulative_effort climbing_ability fatigue_enabled fitness_level terrain_type
      skill_level / distance_km

/-- The 5-tuple returned by `adjust_pace_for_elevation`:
`(final_pace, base_pace_with_climbing, fatigue_seconds, terrain_factor, pace_capped)`. -/
structure PaceResult where
  final_pace : ℚ
  pace_with_climbing : ℚ
  fatigue_seconds_per_km : ℚ
  terrain_factor : ℚ
  pace_capped : Bool
deriving DecidableEq

/-- `adjust_pace_for_elevation` from app.py, assembled from the helper definitions
above (each mirrors the source variable of the same name). -/
def adjust_pace_for_elevation (rp : ℚ → ℚ → ℚ)
    (base_pace elevation_gain elevation_loss distance_km cumulative_effort : ℚ)
    (climbing_ability : ClimbingAbility) (fatigue_enabled : Bool)
    (fitness_level : FitnessLevel) (terrain_type : TerrainType)
    (skill_level : ℚ) : PaceResult :=
  if distance_km = 0 then ⟨base_pace, base_pace, 0, 1, false⟩
  else
    let pace_with_climbing := paceWithClimbing base_pace elevation_gain elevation_loss
      distance_km climbing_ability terrain_type skill_level
    let fatigue_multiplier := fatigueMultiplier rp fatigue_enabled fitness_level
      cumulative_effort
    let final_pace := adjustedSegmentTime rp base_pace elevation_gain elevation_loss
      distance_km cumulative_effort climbing_ability fatigue_enabled fitness_level
      terrain_type skill_level / distance_km
    let fatigue_seconds_per_km := (pace_with_climbing * fatigue_multiplier
      - pace_with_climbing) * 60
    let max_allowed_pace := base_pace * (5/2)
    { final_pace := if final_pace > max_allowed_pace then max_allowed_pace else final_pace
    , pace_with_climbing := pace_with_climbing
    , fatigue_seconds_per_km := fatigue_seconds_per_km
    , terrain_factor := segmentTerrainFactor elevation_gain elevation_loss distance_km
        terrain_type skill_level
    , pace_capped := if final_pace > max_allowed_pace then true else false }

/-- C4: on a zero-distance segment the pace model returns
`(base_pace, base_pace, 0, 1.0, False)` unconditionally. -/
theorem c4_zero_distance (rp : ℚ → ℚ → ℚ)
    (base_pace elevation_gain elevation_loss cumulative_effort : ℚ)
    (climbing_ability : ClimbingAbility) (fatigue_enabled : Bool)
    (fitness_level : FitnessLevel) (terrain_type : TerrainType) (skill_level : ℚ) :
    adjust_pace_for_elevation rp base_pace elevation_gain elevation_loss 0
      cumulative_effort climbing_ability fatigue_enabled fitness_level terrain_type
      skill_level = ⟨base_pace, base_pace, 0, 1, false⟩ := by
  simp [adjust_pace_for_elevation]

/-- C3: for all inputs (any positive base pace, any exponentiation function), the
final pace returned by the segment pace model is at most `2.5 × base_pace`, and
`pace_capped` is true exactly when the uncapped pace exceeds `2.5 × base_pace`. -/
theorem c3_pace_cap (rp : ℚ → ℚ → ℚ)
    (base_pace elevation_gain elevation_loss distance_km cumulative_effort : ℚ)
    (climbing_ability : ClimbingAbility) (fatigue_enabled : Bool)
    (fitness_level : FitnessLevel) (terrain_type : TerrainType) (skill_level : ℚ)
    (hbp : 0 < base_pace) :
    (adjust_pace_for_elevation rp base_pace elevation_gain elevation_loss distance_km
      cumulative_effort climbing_ability fatigue_enabled fitness_level terrain_type
      skill_level).final_pace ≤ base_pace * (5/2) ∧
    ((adjust_pace_for_elevation rp base_pace elevation_gain elevation_loss distance_km
      cumulative_effort climbing_ability fatigue_enabled fitness_level terrain_type
      skill_level).pace_capped = true ↔
      base_pace * (5/2) < uncappedFinalPace rp base_pace elevation_gain elevation_loss
        distance_km cumulative_effort climbing_ability fatigue_enabled fitness_level
        terrain_type skill_level) := by
  by_cases hd : distance_km = 0
  · simp only [adjust_pace_for_elevation, uncappedFinalPace, if_pos hd]
    refine ⟨by nlinarith, ?_⟩
    simp only [Bool.false_eq_true, false_iff, not_lt]
    nlinarith
  · simp only [adjust_pace_for_elevation, uncappedFinalPace, if_neg hd]
    set U := adjustedSegmentTime rp base_pace elevation_gain elevation_loss distance_km
      cumulative_effort climbing_ability fatigue_enabled fitness_level terrain_type
      skill_level / distance_km with hU
    by_cases hcap : U > base_pace * (5/2)
    · simp only [if_pos hcap]
      exact ⟨le_refl _, by simpa using hcap⟩
    · simp only [if_neg hcap]
      exact ⟨not_lt.mp hcap, by simpa using hcap⟩

/-- C3 witness: the cap invariant at a concrete input (a 10 km rocky segment with
500 m of gain at 6 min/km base pace). -/
theorem c3_pace_cap_witness :
    (adjust_pace_for_elevation (fun x _ => x) 6 500 100 10 0 .moderate false
      .recreational .rocky_runnable (1/2)).final_pace ≤ 6 * (5/2) ∧
    ((adjust_pace_for_elevation (fun x _ => x) 6 500 100 10 0 .moderate false
      .recreational .rocky_runnable (1/2)).pace_capped = true ↔
      6 * (5/2) < uncappedFinalPace (fun x _ => x) 6 500 100 10 0 .moderate false
        .recreational .rocky_runnable (1/2)) :=
  c3_pace_cap (fun x _ => x) 6 500 100 10 0 .moderate false .recreational
    .rocky_runnable (1/2) (by norm_num)

/-- The base efficiency curve never drops below 0.70. -/
theorem gradeEfficiencyBase_ge (p : ℚ) : 7/10 ≤ gradeEfficiencyBase p := by
  unfold gradeEfficiencyBase
  split_ifs <;> linarith

/-- The base efficiency curve never exceeds 1. -/
theorem gradeEfficiencyBase_le_one (p : ℚ) : gradeEfficiencyBase p ≤ 1 := by
  unfold gradeEfficiencyBase
  split_ifs <;> linarith

/-- Below the 12% knee the base efficiency curve is at least 0.90. -/
theorem gradeEfficiencyBase_ge_nine_tenths (p : ℚ) (h : p ≤ 12) :
    9/10 ≤ gradeEfficiencyBase p := by
  unfold gradeEfficiencyBase
  split_ifs <;> linarith

/-- Below the 12% knee the base efficiency curve grows at slope at most 1/60. -/
theorem gradeEfficiencyBase_lipschitz (p1 p2 : ℚ) (h1 : p1 ≤ p2) (h2 : p2 ≤ 12) :
    gradeEfficiencyBase p2 ≤ gradeEfficiencyBase p1 + (p2 - p1) / 60 := by
  unfold gradeEfficiencyBase
  split_ifs <;> linarith

/-- Between 12% and 25% the base efficiency curve falls at slope at least 3/140. -/
theorem gradeEfficiencyBase_decay (p1 p2 : ℚ) (h0 : 12 ≤ p1) (h1 : p1 ≤ p2)
    (h2 : p2 ≤ 25) :
    gradeEfficiencyBase p2 ≤ gradeEfficiencyBase p1 - (p2 - p1) * (3/140) := by
  unfold gradeEfficiencyBase
  split_ifs <;> linarith

/-- Above 25% the base efficiency curve is the constant 0.70. -/
theorem gradeEfficiencyBase_gt25 (p : ℚ) (h : 25 < p) : gradeEfficiencyBase p = 7/10 := by
  unfold gradeEfficiencyBase
  split_ifs <;> linarith

/-- The skill-bonused climbing efficiency never exceeds 1. -/
theorem climbEfficiency_le_one (p s : ℚ) : climbEfficiency p s ≤ 1 := by
  unfold climbEfficiency
  split_ifs
  · exact min_le_left _ _
  · exact gradeEfficiencyBase_le_one p

/-- The skill-bonused climbing efficiency never drops below 0.70 (for a
nonnegative skill level). -/
theorem climbEfficiency_ge (p s : ℚ) (hs : 0 ≤ s) : 7/10 ≤ climbEfficiency p s := by
  unfold climbEfficiency
  split_ifs with hp
  · have hb := gradeEfficiencyBase_ge p
    have hbonus : 0 ≤ s * (5/100) * min 1 ((p - 12) / 13) :=
      mul_nonneg (mul_nonneg hs (by norm_num))
        (le_min (by norm_num) (div_nonneg (by linarith) (by norm_num)))
    have h710 : (7:ℚ)/10 = min 1 (7/10) := by norm_num
    rw [h710]
    exact min_le_min (le_refl 1) (by linarith)
  · exact gradeEfficiencyBase_ge p

/-- Without the above-12% bonus branch the climbing efficiency is the base curve. -/
theorem climbEfficiency_eq_base (p s : ℚ) (h : ¬ p > 12) :
    climbEfficiency p s = gradeEfficiencyBase p := if_neg h

/-- Above the 12% knee the climbing efficiency is non-increasing for skill in [0,1]. -/
theorem climbEfficiency_anti (p1 p2 s : ℚ) (h12 : 12 < p1) (h : p1 ≤ p2)
    (hs0 : 0 ≤ s) (hs1 : s ≤ 1) :
    climbEfficiency p2 s ≤ climbEfficiency p1 s := by
  unfold climbEfficiency
  rw [if_pos (by linarith : p2 > 12), if_pos h12]
  refine min_le_min (le_refl 1) ?_
  by_cases h25 : p2 ≤ 25
  · have hm2 : min (1:ℚ) ((p2 - 12) / 13) = (p2 - 12) / 13 :=
      min_eq_right ((div_le_one (by norm_num)).mpr (by linarith))
    have hm1 : min (1:ℚ) ((p1 - 12) / 13) = (p1 - 12) / 13 :=
      min_eq_right ((div_le_one (by norm_num)).mpr (by linarith))
    rw [hm1, hm2]
    have hd := gradeEfficiencyBase_decay p1 p2 (by linarith) h h25
    nlinarith [mul_nonneg (by linarith : (0:ℚ) ≤ p2 - p1)
      (by linarith : (0:ℚ) ≤ 3/140 - s * (1/260))]
  · have hm2 : min (1:ℚ) ((p2 - 12) / 13) = 1 :=
      min_eq_left ((le_div_iff (by norm_num)).mpr (by linarith))
    have hb2 : gradeEfficiencyBase p2 = 7/10 := gradeEfficiencyBase_gt25 p2 (by linarith)
    by_cases h25' : p1 ≤ 25
    · have hm1 : min (1:ℚ) ((p1 - 12) / 13) = (p1 - 12) / 13 :=
        min_eq_right ((div_le_one (by norm_num)).mpr (by linarith))
      have hd := gradeEfficiencyBase_decay p1 25 (by linarith) h25' (le_refl 25)
      have hb25 : gradeEfficiencyBase 25 = 7/10 := by norm_num [gradeEfficiencyBase]
      rw [hb25] at hd
      rw [hm1, hm2, hb2]
      nlinarith [mul_nonneg (by linarith : (0:ℚ) ≤ 25 - p1)
        (by linarith : (0:ℚ) ≤ 3/140 - s * (1/260))]
    · have hm1 : min (1:ℚ) ((p1 - 12) / 13) = 1 :=
        min_eq_left ((le_div_iff (by norm_num)).mpr (by linarith))
      have hb1 : gradeEfficiencyBase p1 = 7/10 := gradeEfficiencyBase_gt25 p1 (by linarith)
      rw [hm1, hm2, hb1, hb2]

/-- Key cross-multiplied monotonicity: scaling the gradient up scales the climb
time `p / efficiency(p)` up as well (stated multiplicatively to avoid division). -/
theorem climbEfficiency_cross (p1 p2 s : ℚ) (hp1 : 0 ≤ p1) (h : p1 ≤ p2)
    (hs0 : 0 ≤ s) (hs1 : s ≤ 1) :
    p1 * climbEfficiency p2 s ≤ p2 * climbEfficiency p1 s := by
  by_cases hc2 : p2 ≤ 12
  · rw [climbEfficiency_eq_base p1 s (by linarith), climbEfficiency_eq_base p2 s (by linarith)]
    have hL := gradeEfficiencyBase_lipschitz p1 p2 h hc2
    have h9 := gradeEfficiencyBase_ge_nine_tenths p1 (by linarith)
    nlinarith [mul_le_mul_of_nonneg_left hL hp1,
      mul_nonneg (by linarith : (0:ℚ) ≤ p2 - p1)
        (by linarith : (0:ℚ) ≤ gradeEfficiencyBase p1 - p1 / 60)]
  · by_cases hc1 : p1 ≤ 12
    · rw [climbEfficiency_eq_base p1 s (by linarith)]
      have hle1 : climbEfficiency p2 s ≤ 1 := climbEfficiency_le_one p2 s
      have h1one : (1:ℚ) ≤ gradeEfficiencyBase p1 + (12 - p1) / 60 := by
        have h12 := gradeEfficiencyBase_lipschitz p1 12 hc1 (le_refl 12)
        have hb12 : gradeEfficiencyBase 12 = 1 := by norm_num [gradeEfficiencyBase]
        rw [hb12] at h12
        linarith
      have h9 := gradeEfficiencyBase_ge_nine_tenths p1 hc1
      have ha : p1 * climbEfficiency p2 s ≤ p1 := by
        nlinarith [mul_le_mul_of_nonneg_left hle1 hp1]
      have hb : p1 ≤ 12 * gradeEfficiencyBase p1 := by
        nlinarith [mul_le_mul_of_nonneg_left h1one hp1,
          mul_nonneg (by linarith : (0:ℚ) ≤ 12 - p1)
            (by linarith : (0:ℚ) ≤ gradeEfficiencyBase p1 - p1 / 60)]
      have hc : 12 * gradeEfficiencyBase p1 ≤ p2 * gradeEfficiencyBase p1 :=
        mul_le_mul_of_nonneg_right (by linarith) (by linarith)
      linarith
    · have ha := climbEfficiency_anti p1 p2 s (by linarith) h hs0 hs1
      have hge := climbEfficiency_ge p1 s hs0
      calc p1 * climbEfficiency p2 s ≤ p1 * climbEfficiency p1 s :=
            mul_le_mul_of_nonneg_left ha hp1
        _ ≤ p2 * climbEfficiency p1 s :=
            mul_le_mul_of_nonneg_right h (by linarith)

/-- All climbing-ability vertical speeds are positive. -/
theorem verticalSpeedOf_pos (ca : ClimbingAbility) : 0 < verticalSpeedOf ca := by
  cases ca <;> norm_num [verticalSpeedOf]

/-- The adjusted vertical speed is positive for positive base speed. -/
theorem calculate_vertical_speed_pos (vb g s : ℚ) (hvb : 0 < vb) (hs : 0 ≤ s) :
    0 < calculate_vertical_speed vb g s := by
  unfold calculate_vertical_speed
  exact mul_pos hvb (lt_of_lt_of_le (by norm_num) (climbEfficiency_ge _ s hs))

/-- Climb time is never negative. -/
theorem climbTime_nonneg (g l d : ℚ) (ca : ClimbingAbility) (s : ℚ) (hs : 0 ≤ s) :
    0 ≤ climbTime g l d ca s := by
  unfold climbTime
  split_ifs with hg
  · exact mul_nonneg (div_nonneg (le_of_lt hg)
      (le_of_lt (calculate_vertical_speed_pos _ _ s (verticalSpeedOf_pos ca) hs)))
      (by norm_num)
  · exact le_refl 0

/-- With no elevation loss, climb time is monotone in the elevation gain. -/
theorem climbTime_mono (g1 g2 d : ℚ) (ca : ClimbingAbility) (s : ℚ)
    (hd : 0 < d) (hg1 : 0 ≤ g1) (hg : g1 ≤ g2) (hs0 : 0 ≤ s) (hs1 : s ≤ 1) :
    climbTime g1 0 d ca s ≤ climbTime g2 0 d ca s := by
  unfold climbTime
  by_cases h1 : g1 > 0
  · rw [if_pos h1, if_pos (by linarith : g2 > 0)]
    have hgrad1 : gradientOf g1 0 d = g1 / (d * 1000) := by
      unfold gradientOf; rw [if_pos hd, sub_zero]
    have hgrad2 : gradientOf g2 0 d = g2 / (d * 1000) := by
      unfold gradientOf; rw [if_pos hd, sub_zero]
    have hd1000 : (0:ℚ) < d * 1000 := by nlinarith
    unfold calculate_vertical_speed
    rw [hgrad1, hgrad2, abs_of_nonneg (div_nonneg hg1 (le_of_lt hd1000)),
        abs_of_nonneg (div_nonneg (by linarith) (le_of_lt hd1000))]
    set p1 := g1 / (d * 1000) * 100 with hp1def
    set p2 := g2 / (d * 1000) * 100 with hp2def
    set E1 := climbEfficiency p1 s with hE1def
    set E2 := climbEfficiency p2 s with hE2def
    have hVb := verticalSpeedOf_pos ca
    have hE1 : 7/10 ≤ E1 := climbEfficiency_ge p1 s hs0
    have hE2 : 7/10 ≤ E2 := climbEfficiency_ge p2 s hs0
    have hp1 : 0 ≤ p1 := by
      rw [hp1def]
      exact mul_nonneg (div_nonneg hg1 (le_of_lt hd1000)) (by norm_num)
    have hp12 : p1 ≤ p2 := by
      rw [hp1def, hp2def]
      exact mul_le_mul_of_nonneg_right ((div_le_div_right hd1000).mpr hg) (by norm_num)
    have hcross := climbEfficiency_cross p1 p2 s hp1 hp12 hs0 hs1
    have hdne : d ≠ 0 := ne_of_gt hd
    have hX1 : p1 * (10 * d) = g1 := by
      rw [hp1def]; field_simp; ring
    have hX2 : p2 * (10 * d) = g2 := by
      rw [hp2def]; field_simp; ring
    have hgE : g1 * E2 ≤ g2 * E1 := by
      have h10d : (0:ℚ) ≤ 10 * d := by linarith
      calc g1 * E2 = (p1 * E2) * (10 * d) := by rw [← hX1]; ring
        _ ≤ (p2 * E1) * (10 * d) := mul_le_mul_of_nonneg_right hcross h10d
        _ = g2 * E1 := by rw [← hX2]; ring
    have hD1 : (0:ℚ) < verticalSpeedOf ca * E1 := mul_pos hVb (by linarith)
    have hD2 : (0:ℚ) < verticalSpeedOf ca * E2 := mul_pos hVb (by linarith)
    rw [div_mul_eq_mul_div, div_mul_eq_mul_div, div_le_div_iff hD1 hD2]
    nlinarith [mul_le_mul_of_nonneg_right hgE
      (by linarith : (0:ℚ) ≤ 60 * verticalSpeedOf ca)]
  · rw [if_neg h1]
    split_ifs with h2
    · exact mul_nonneg (div_nonneg (by linarith)
        (le_of_lt (calculate_vertical_speed_pos _ _ s (verticalSpeedOf_pos ca) hs0)))
        (by norm_num)
    · exact le_refl 0

/-- The terrain efficiency factor is monotone in |gradient| for skill at most 1. -/
theorem tef_mono_gradient (tt : TerrainType) (g1 g2 s : ℚ) (d : Bool)
    (h : |g1| ≤ |g2|) (hs1 : s ≤ 1) :
    calculate_terrain_efficiency_factor tt g1 s d ≤
      calculate_terrain_efficiency_factor tt g2 s d := by
  have hf : 0 < terrainFactorOf tt := by cases tt <;> norm_num [terrainFactorOf]
  have key : (0:ℚ) ≤ terrainFactorOf tt * (5/4) * (|g2| - |g1|) * (1 - s) :=
    mul_nonneg (mul_nonneg (mul_nonneg (le_of_lt hf) (by norm_num))
      (sub_nonneg.mpr h)) (by linarith)
  cases d
  · simp only [calculate_terrain_efficiency_factor, TERRAIN_GRADIENT_GAMMA,
      TERRAIN_CLIMB_FACTOR, Bool.false_eq_true, ite_false]
    apply max_le_max (le_refl 1)
    nlinarith [key]
  · simp only [calculate_terrain_efficiency_factor, TERRAIN_GRADIENT_GAMMA,
      TERRAIN_DESCENT_FACTOR, ite_true]
    apply max_le_max (le_refl 1)
    nlinarith [key]

/-- The fatigue multiplier is nonnegative for any exponentiation function that is
nonnegative on positive bases (as the real `**` is). -/
theorem fatigueMultiplier_nonneg (rp : ℚ → ℚ → ℚ) (fe : Bool) (fl : FitnessLevel)
    (cum : ℚ) (hrp : ∀ x y, 0 < x → 0 ≤ rp x y) :
    0 ≤ fatigueMultiplier rp fe fl cum := by
  simp only [fatigueMultiplier]
  split_ifs with h1 h2
  · have hfop : 0 < fopOf fl := by cases fl <;> norm_num [fopOf]
    have hx : 0 < (cum - fopOf fl) / fopOf fl := div_pos (by linarith) hfop
    have hr := hrp _ (betaOf fl) hx
    have hα : 0 ≤ alphaOf fl := by cases fl <;> norm_num [alphaOf]
    nlinarith [mul_nonneg hα hr]
  · norm_num
  · norm_num

/-- With zero elevation loss there are no descent savings. -/
theorem descentTimeSavings_no_loss (bp g d : ℚ) (tt : TerrainType) (s : ℚ) :
    descentTimeSavings bp g 0 d tt s = 0 := by
  simp [descentTimeSavings]

/-- Horizontal time is nonnegative for positive base pace and nonnegative distance. -/
theorem horizontalTime_nonneg (bp d : ℚ) (hbp : 0 < bp) (hd : 0 ≤ d) :
    0 ≤ horizontalTime bp d := by
  unfold horizontalTime
  exact mul_nonneg (div_nonneg hd (le_of_lt (div_pos (by norm_num) hbp))) (by norm_num)

/-- The segment terrain factor is at least 1. -/
theorem segmentTerrainFactor_ge_one (g l d : ℚ) (tt : TerrainType) (s : ℚ) :
    1 ≤ segmentTerrainFactor g l d tt s := by
  unfold segmentTerrainFactor
  exact terrain_factor_ge_one tt _ s _

/-- With no elevation loss the segment terrain factor is monotone in the gain. -/
theorem segmentTerrainFactor_mono (g1 g2 d : ℚ) (tt : TerrainType) (s : ℚ)
    (hd : 0 < d) (hg1 : 0 ≤ g1) (hg : g1 ≤ g2) (hs1 : s ≤ 1) :
    segmentTerrainFactor g1 0 d tt s ≤ segmentTerrainFactor g2 0 d tt s := by
  unfold segmentTerrainFactor
  rw [if_neg (not_lt.mpr hg1), if_neg (not_lt.mpr (le_trans hg1 hg))]
  apply tef_mono_gradient tt _ _ s false ?_ hs1
  unfold gradientOf
  rw [if_pos hd, if_pos hd, sub_zero, sub_zero]
  have hpos : (0:ℚ) < d * 1000 := by nlinarith
  rw [abs_of_nonneg (div_nonneg hg1 (le_of_lt hpos)),
      abs_of_nonneg (div_nonneg (le_trans hg1 hg) (le_of_lt hpos))]
  exact (div_le_div_right hpos).mpr hg

/-- C5 (amended): on pure climbs (`elevation_loss = 0`), increasing the elevation
gain never decreases the final pace returned by the segment pace model, for every
positive distance and base pace, every terrain type, climbing ability, fitness
level, fatigue setting, cumulative effort, skill level in [0,1], and every
exponentiation function that is nonnegative on positive bases (as `**` is).
(With a large fixed positive elevation loss the property fails; see the
counterexample.) -/
theorem c5_gain_monotonicity (rp : ℚ → ℚ → ℚ)
    (base_pace g1 g2 distance_km cumulative_effort s : ℚ)
    (ca : ClimbingAbility) (fe : Bool) (fl : FitnessLevel) (tt : TerrainType)
    (hrp : ∀ x y, 0 < x → 0 ≤ rp x y)
    (hbp : 0 < base_pace) (hd : 0 < distance_km)
    (hg1 : 0 ≤ g1) (hg : g1 ≤ g2) (hs0 : 0 ≤ s) (hs1 : s ≤ 1) :
    (adjust_pace_for_elevation rp base_pace g1 0 distance_km cumulative_effort
      ca fe fl tt s).final_pace ≤
    (adjust_pace_for_elevation rp base_pace g2 0 distance_km cumulative_effort
      ca fe fl tt s).final_pace := by
  have hbase1 : 0 ≤ baseSegmentTime base_pace g1 0 distance_km ca tt s := by
    unfold baseSegmentTime
    rw [descentTimeSavings_no_loss]
    have hh := horizontalTime_nonneg base_pace distance_km hbp (le_of_lt hd)
    have hc := climbTime_nonneg g1 0 distance_km ca s hs0
    linarith
  have hbase12 : baseSegmentTime base_pace g1 0 distance_km ca tt s ≤
      baseSegmentTime base_pace g2 0 distance_km ca tt s := by
    unfold baseSegmentTime
    rw [descentTimeSavings_no_loss, descentTimeSavings_no_loss]
    have := climbTime_mono g1 g2 distance_km ca s hd hg1 hg hs0 hs1
    linarith
  have htf1 := segmentTerrainFactor_ge_one g1 0 distance_km tt s
  have htf12 := segmentTerrainFactor_mono g1 g2 distance_km tt s hd hg1 hg hs1
  have hfat := fatigueMultiplier_nonneg rp fe fl cumulative_effort hrp
  have hsb : (0:ℚ) ≤ 1 - s * (3/100) := by linarith
  have hAST : adjustedSegmentTime rp base_pace g1 0 distance_km cumulative_effort
      ca fe fl tt s ≤ adjustedSegmentTime rp base_pace g2 0 distance_km
      cumulative_effort ca fe fl tt s := by
    unfold adjustedSegmentTime
    have h12 : baseSegmentTime base_pace g1 0 distance_km ca tt s *
        segmentTerrainFactor g1 0 distance_km tt s ≤
        baseSegmentTime base_pace g2 0 distance_km ca tt s *
        segmentTerrainFactor g2 0 distance_km tt s :=
      mul_le_mul hbase12 htf12 (by linarith) (le_trans hbase1 hbase12)
    exact mul_le_mul_of_nonneg_right (mul_le_mul_of_nonneg_right h12 hfat) hsb
  have hdne : distance_km ≠ 0 := ne_of_gt hd
  simp only [adjust_pace_for_elevation, if_neg hdne]
  have hU : adjustedSegmentTime rp base_pace g1 0 distance_km cumulative_effort
      ca fe fl tt s / distance_km ≤
      adjustedSegmentTime rp base_pace g2 0 distance_km cumulative_effort
      ca fe fl tt s / distance_km :=
    (div_le_div_right hd).mpr hAST
  split_ifs <;> simp_all <;> linarith

/-- C5 counterexample: with a fixed elevation loss of 580 m over 1 km at base pace
30 min/km (skill 0, moderate climber, smooth trail, fatigue off), raising the
elevation gain from 430 m to 440 m strictly DECREASES the final pace (the smaller
|net gradient| improves climbing efficiency and shrinks the terrain factor faster
than the extra climbing costs), and neither pace is capped — refuting the claim
that increasing elevation gain never decreases predicted pace. -/
theorem c5_counterexample :
    (430:ℚ) ≤ 440 ∧
    (adjust_pace_for_elevation (fun x _ => x) 30 440 580 1 0 .moderate false
      .recreational .smooth_trail 0).final_pace <
    (adjust_pace_for_elevation (fun x _ => x) 30 430 580 1 0 .moderate false
      .recreational .smooth_trail 0).final_pace := by
  constructor
  · norm_num
  · norm_num [adjust_pace_for_elevation, adjustedSegmentTime, baseSegmentTime,
      horizontalTime, climbTime, descentTimeSavings, calculate_vertical_speed,
      climbEfficiency, gradeEfficiencyBase, calculate_downhill_multiplier,
      terrainDownhillCapOf, segmentTerrainFactor, calculate_terrain_efficiency_factor,
      terrainFactorOf, TERRAIN_GRADIENT_GAMMA, TERRAIN_DESCENT_FACTOR,
      TERRAIN_CLIMB_FACTOR, gradientOf, fatigueMultiplier, verticalSpeedOf,
      paceWithClimbing, abs_of_nonpos, abs_of_nonneg]

/-- C5 witness: the amended monotonicity at a concrete pure climb (gain 100 m vs
200 m over 10 km at 6 min/km, fatigue enabled, identity exponentiation — exact for
the recreational tier whose beta is 1). -/
theorem c5_gain_monotonicity_witness :
    (adjust_pace_for_elevation (fun x _ => x) 6 100 0 10 0 .moderate true
      .recreational .smooth_trail (1/2)).final_pace ≤
    (adjust_pace_for_elevation (fun x _ => x) 6 200 0 10 0 .moderate true
      .recreational .smooth_trail (1/2)).final_pace :=
  c5_gain_monotonicity (fun x _ => x) 6 100 200 10 0 (1/2) .moderate true
    .recreational .smooth_trail (fun _ _ hx => le_of_lt hx)
    (by norm_num) (by norm_num) (by norm_num) (by norm_num) (by norm_num) (by norm_num)

/-- Per-segment route data consumed by the allocator and the natural-pacing
simulator (the `segments_data` dict entries `distance`, `elev_gain`, `elev_loss`,
`terrain_type`). -/
structure SegData where
  distance : ℚ
  elev_gain : ℚ
  elev_loss : ℚ
  terrain_type : TerrainType
deriving DecidableEq

/-- One entry of `calculate_natural_pacing`'s result list. -/
structure NaturalResult where
  natural_time : ℚ
  natural_pace : ℚ
deriving DecidableEq

/-- One entry of `allocate_effort_to_target`'s result list. -/
structure AllocResult where
  segment_time : ℚ
  required_pace : ℚ
  effort_level : EffortLevel
deriving DecidableEq

/-- `climbing_cost_map` in `get_terrain_effort_bounds`. -/
def climbingCostOf : ClimbingAbility → ℚ
  | .elite => 75/100
  | .very_strong => 85/100
  | .strong => 95/100
  | .moderate => 1
  | .conservative => 12/10

/-- `fitness_budget_map` in `allocate_effort_to_target`. -/
def fitnessBudgetOf : FitnessLevel → ℚ
  | .untrained => 15/100
  | .recreational => 25/100
  | .trained => 35/100
  | .elite => 50/100

/-- `fitness_fatigue_map` in `allocate_effort_to_target` (and in the threshold
simulators). -/
def fitnessFatigueOf : FitnessLevel → ℚ
  | .untrained => 15/10
  | .recreational => 13/10
  | .trained => 115/100
  | .elite => 105/100

/-- `get_terrain_effort_bounds` from app.py:
`(min_multiplier, max_multiplier, effort_cost_multiplier)` by gradient class. -/
def get_terrain_effort_bounds (elev_gain elev_loss distance_km : ℚ)
    (climbing_ability : ClimbingAbility) (skill_level : ℚ) : ℚ × ℚ × ℚ :=
  let gradient :=
    if distance_km > 0 then (elev_gain - elev_loss) / (distance_km * 1000) else 0
  let climbing_cost := climbingCostOf climbing_ability
  let skill_cost_factor := 1 + (1 - skill_level) * (8/10)
  if gradient > 8/100 then
    match climbing_ability with
    | .elite => (70/100, 115/100, climbing_cost)
    | .very_strong => (75/100, 120/100, climbing_cost)
    | .strong => (80/100, 125/100, climbing_cost)
    | .moderate => (85/100, 130/100, climbing_cost)
    | .conservative => (90/100, 135/100, climbing_cost)
  else if gradient < -(5/100) then
    if skill_level ≥ 8/10 then (80/100, 120/100, skill_cost_factor)
    else if skill_level ≥ 6/10 then (85/100, 120/100, skill_cost_factor)
    else if skill_level ≥ 4/10 then (90/100, 125/100, skill_cost_factor)
    else (95/100, 130/100, skill_cost_factor)
  else (80/100, 125/100, 1)

/-- `segment_effort = distance_km + elev_gain/100 + elev_loss/200` (km-effort). -/
def segmentEffort (s : SegData) : ℚ :=
  s.distance + s.elev_gain / 100 + s.elev_loss / 200

/-- The per-segment `(max_adjustment, effort_cost)` pairs built by the first loop
of `allocate_effort_to_target` (the source also records `index`, `multiplier` and
`direction` in each dict, but never reads them afterwards). The accumulator is the
cumulative km-effort of the already-processed segments; as in the source it is
advanced only when fatigue is enabled, and the fatigue multiplier uses its value
from strictly before the current segment. -/
def allocAdjustments (faster : Bool) (climbing_ability : ClimbingAbility)
    (fatigue_enabled : Bool) (fitness_level : FitnessLevel) (skill_level : ℚ) :
    List SegData → List NaturalResult → ℚ → List (ℚ × ℚ)
  | seg :: segs, nat :: nats, cum =>
    let bounds := get_terrain_effort_bounds seg.elev_gain seg.elev_loss seg.distance
      climbing_ability skill_level
    let fatigue_multiplier :=
      if fatigue_enabled then
        min (1 + cum / 100 * (fitnessFatigueOf fitness_level - 1))
          (fitnessFatigueOf fitness_level)
      else 1
    let cum' := if fatigue_enabled then cum + segmentEffort seg else cum
    let total_effort_cost := bounds.2.2 * fatigue_multiplier
    let max_adjustment :=
      if faster then nat.natural_time * (1 - bounds.1)
      else nat.natural_time * (bounds.2.1 - 1)
    (max_adjustment, total_effort_cost) ::
      allocAdjustments faster climbing_ability fatigue_enabled fitness_level
        skill_level segs nats cum'
  | _, _, _ => []

/-- The "natural pacing with steady labels" result list used both by the 30-second
tolerance band and by the zero-capacity fallback of `allocate_effort_to_target`
(the source enumerates `segments_data` while indexing `natural_results[i]`). -/
def steadyResults : List SegData → List NaturalResult → List AllocResult
  | _ :: segs, nat :: nats =>
    ⟨nat.natural_time, nat.natural_pace, .steady⟩ :: steadyResults segs nats
  | _, _ => []

/-- The distribution loop of `allocate_effort_to_target`: each segment receives the
cost-weighted share of the (possibly clamped) |ΔT|, capped at its own capacity, and
an effort label from the 10% thresholds. The label test divides by the segment's
natural time without a guard, exactly as the source does (in `ℚ` the division
totalises; `allocateDivisionsSafe` below tracks where Python would raise). -/
def allocFinal (faster : Bool) (abs_delta_t total_cwc : ℚ) :
    List SegData → List NaturalResult → List (ℚ × ℚ) → List AllocResult
  | seg :: segs, nat :: nats, adj :: adjs =>
    let segment_adjustment :=
      if total_cwc > 0 then min (adj.1 / adj.2 / total_cwc * abs_delta_t) adj.1
      else 0
    let adjusted_time :=
      if faster then nat.natural_time - segment_adjustment
      else nat.natural_time + segment_adjustment
    let effort_level :=
      if faster then
        (if segment_adjustment / nat.natural_time ≥ 10/100 then EffortLevel.push
         else EffortLevel.steady)
      else
        (if segment_adjustment / nat.natural_time ≥ 10/100 then EffortLevel.protect
         else EffortLevel.steady)
    let adjusted_pace :=
      if seg.distance > 0 then adjusted_time / seg.distance else nat.natural_pace
    ⟨adjusted_time, adjusted_pace, effort_level⟩ ::
      allocFinal faster abs_delta_t total_cwc segs nats adjs
  | _, _, _ => []

/-- `allocate_effort_to_target` from app.py (its `base_pace` parameter is accepted
by the source but never read, so it is omitted here). -/
def allocate_effort_to_target (target_time_minutes : ℚ) (segments_data : List SegData)
    (natural_results : List NaturalResult) (climbing_ability : ClimbingAbility)
    (fatigue_enabled : Bool) (fitness_level : FitnessLevel) (skill_level : ℚ) :
    List AllocResult :=
  if natural_results = [] then []
  else
    let natural_total_time := (natural_results.map (·.natural_time)).sum
    let delta_t := natural_total_time - target_time_minutes
    if |delta_t| < 1/2 then steadyResults segments_data natural_results
    else
      let max_total_deviation := natural_total_time * fitnessBudgetOf fitness_level
      let adjs := allocAdjustments (decide (delta_t > 0)) climbing_ability
        fatigue_enabled fitness_level skill_level segments_data natural_results 0
      let total_capacity := (adjs.map (·.1)).sum
      if total_capacity = 0 then steadyResults segments_data natural_results
      else
        let abs_delta_t :=
          if |delta_t| > max_total_deviation then max_total_deviation else |delta_t|
        let total_cwc := (adjs.map (fun a => a.1 / a.2)).sum
        allocFinal (decide (delta_t > 0)) abs_delta_t total_cwc segments_data
          natural_results adjs

/-- Replays the control flow of `allocate_effort_to_target` and holds exactly when
every division the Python source executes on that path has a nonzero denominator:
on the full allocation path these are each segment's `effort_cost` (denominator of
the cost-weighted capacity sum) and each segment's `natural_time` (denominator of
the UNGUARDED effort-label test `segment_adjustment / natural_time >= 0.10`); all
other divisions in the source are explicitly guarded. -/
def allocateDivisionsSafe (target_time_minutes : ℚ) (segments_data : List SegData)
    (natural_results : List NaturalResult) (climbing_ability : ClimbingAbility)
    (fatigue_enabled : Bool) (fitness_level : FitnessLevel) (skill_level : ℚ) : Prop :=
  if natural_results = [] then True
  else
    let natural_total_time := (natural_results.map (·.natural_time)).sum
    let delta_t := natural_total_time - target_time_minutes
    if |delta_t| < 1/2 then True
    else
      let adjs := allocAdjustments (decide (delta_t > 0)) climbing_ability
        fatigue_enabled fitness_level skill_level segments_data natural_results 0
      let total_capacity := (adjs.map (·.1)).sum
      if total_capacity = 0 then True
      else
        (∀ a ∈ adjs, a.2 ≠ 0) ∧
        (∀ p ∈ segments_data.zip natural_results, p.2.natural_time ≠ 0)

/-- The loop of `calculate_natural_pacing`: runs the pace model on each segment
with the cumulative km-effort accumulated strictly before it, then records
`natural_time = natural_pace × distance` and advances the accumulator by the
segment's own effort. -/
def naturalPacingLoop (rp : ℚ → ℚ → ℚ) (base_pace : ℚ)
    (climbing_ability : ClimbingAbility) (fatigue_enabled : Bool)
    (fitness_level : FitnessLevel) (skill_level : ℚ) :
    List SegData → ℚ → List NaturalResult
  | [], _ => []
  | seg :: segs, cumulative_effort =>
    let natural_pace := (adjust_pace_for_elevation rp base_pace seg.elev_gain
      seg.elev_loss seg.distance cumulative_effort climbing_ability fatigue_enabled
      fitness_level seg.terrain_type skill_level).final_pace
    ⟨natural_pace * seg.distance, natural_pace⟩ ::
      naturalPacingLoop rp base_pace climbing_ability fatigue_enabled fitness_level
        skill_level segs (cumulative_effort + segmentEffort seg)

/-- `calculate_natural_pacing` from app.py. -/
def calculate_natural_pacing (rp : ℚ → ℚ → ℚ) (segments_data : List SegData)
    (base_pace : ℚ) (climbing_ability : ClimbingAbility) (fatigue_enabled : Bool)
    (fitness_level : FitnessLevel) (skill_level : ℚ) : List NaturalResult :=
  naturalPacingLoop rp base_pace climbing_ability fatigue_enabled fitness_level
    skill_level segments_data 0

/-- `steadyResults` pairs the i-th segment with the i-th natural result. -/
theorem steadyResults_get (segs : List SegData) (nats : List NaturalResult)
    (hlen : segs.length = nats.length) :
    ∀ i, (steadyResults segs nats).get? i =
      (nats.get? i).map fun n =>
        (⟨n.natural_time, n.natural_pace, .steady⟩ : AllocResult) := by
  induction segs generalizing nats with
  | nil =>
    cases nats with
    | nil => intro i; simp [steadyResults]
    | cons n ns => simp at hlen
  | cons seg segs ih =>
    cases nats with
    | nil => simp at hlen
    | cons n ns =>
      intro i
      cases i with
      | zero => simp [steadyResults]
      | succ j =>
        simp only [steadyResults, List.get?]
        exact ih ns (by simpa using hlen) j

/-- C2: when the target is within the 30-second tolerance band of the natural
total time, the allocator returns, for every segment, the natural time, the
natural pace, and the `steady` label. -/
theorem c2_tolerance_band (target : ℚ) (segs : List SegData)
    (nats : List NaturalResult) (ca : ClimbingAbility) (fe : Bool)
    (fl : FitnessLevel) (s : ℚ)
    (hlen : segs.length = nats.length)
    (htol : |(nats.map (·.natural_time)).sum - target| < 1/2) :
    ∀ i, (allocate_effort_to_target target segs nats ca fe fl s).get? i =
      (nats.get? i).map fun n =>
        (⟨n.natural_time, n.natural_pace, .steady⟩ : AllocResult) := by
  intro i
  by_cases hne : nats = []
  · subst hne
    simp [allocate_effort_to_target]
  · simp only [allocate_effort_to_target]
    rw [if_neg hne, if_pos htol]
    exact steadyResults_get segs nats hlen i

/-- C2 witness: a one-segment route whose target exactly matches the natural
time, inspected at segment index 0. -/
theorem c2_tolerance_band_witness :
    (allocate_effort_to_target 60 [⟨10, 0, 0, .smooth_trail⟩]
        [⟨60, 6⟩] .moderate false .recreational (1/2)).get? 0 =
      (([⟨60, 6⟩] : List NaturalResult).get? 0).map fun n =>
        (⟨n.natural_time, n.natural_pace, .steady⟩ : AllocResult) :=
  c2_tolerance_band 60 [⟨10, 0, 0, .smooth_trail⟩] [⟨60, 6⟩] .moderate false
    .recreational (1/2) (by norm_num) (by norm_num) 0

set_option maxHeartbeats 1000000 in
/-- The effort bounds always allow some adjustment in each direction
(`min_multiplier ≤ 1 ≤ max_multiplier`, strictly in fact) and the effort cost is
positive for skill at most 1. -/
theorem get_terrain_effort_bounds_facts (g l d : ℚ) (ca : ClimbingAbility) (s : ℚ)
    (hs1 : s ≤ 1) :
    (get_terrain_effort_bounds g l d ca s).1 < 1 ∧
    1 < (get_terrain_effort_bounds g l d ca s).2.1 ∧
    0 < (get_terrain_effort_bounds g l d ca s).2.2 := by
  have hscf : (0:ℚ) < 1 + (1 - s) * (8/10) := by nlinarith
  cases ca <;>
    · simp only [get_terrain_effort_bounds, climbingCostOf]
      split_ifs <;>
        exact ⟨by norm_num, by norm_num, by first | exact hscf | norm_num⟩

/-- Each segment's km-effort is nonnegative for nonnegative inputs. -/
theorem segmentEffort_nonneg (seg : SegData) (h : 0 ≤ seg.distance ∧
    0 ≤ seg.elev_gain ∧ 0 ≤ seg.elev_loss) : 0 ≤ segmentEffort seg := by
  unfold segmentEffort
  obtain ⟨h1, h2, h3⟩ := h
  have e2 : 0 ≤ seg.elev_gain / 100 := by positivity
  have e3 : 0 ≤ seg.elev_loss / 200 := by positivity
  linarith

/-- Every fitness fatigue factor is at least 1. -/
theorem fitnessFatigueOf_ge_one (fl : FitnessLevel) : 1 ≤ fitnessFatigueOf fl := by
  cases fl <;> norm_num [fitnessFatigueOf]

/-- All `(max_adjustment, effort_cost)` pairs built by the allocator's first loop
have a nonnegative capacity and a positive cost, given positive natural times,
nonnegative segment data, nonnegative starting accumulator and skill at most 1. -/
theorem allocAdjustments_bounds (faster : Bool) (ca : ClimbingAbility) (fe : Bool)
    (fl : FitnessLevel) (s : ℚ) (hs1 : s ≤ 1) :
    ∀ (segs : List SegData) (nats : List NaturalResult) (cum : ℚ), 0 ≤ cum →
      (∀ n ∈ nats, 0 < n.natural_time) →
      (∀ seg ∈ segs, 0 ≤ seg.distance ∧ 0 ≤ seg.elev_gain ∧ 0 ≤ seg.elev_loss) →
      ∀ a ∈ allocAdjustments faster ca fe fl s segs nats cum,
        0 ≤ a.1 ∧ 0 < a.2 := by
  intro segs
  induction segs with
  | nil =>
    intro nats cum _ _ _ a ha
    simp [allocAdjustments] at ha
  | cons seg segs ih =>
    intro nats cum hcum hnats hsegs a ha
    cases nats with
    | nil => simp [allocAdjustments] at ha
    | cons nat nats' =>
      have hb := get_terrain_effort_bounds_facts seg.elev_gain seg.elev_loss
        seg.distance ca s hs1
      have hn : 0 < nat.natural_time := hnats nat (by simp)
      have hfm : 0 < (if fe then
          min (1 + cum / 100 * (fitnessFatigueOf fl - 1)) (fitnessFatigueOf fl)
          else (1:ℚ)) := by
        split_ifs
        · have hff := fitnessFatigueOf_ge_one fl
          have hstep : 0 ≤ cum / 100 * (fitnessFatigueOf fl - 1) :=
            mul_nonneg (div_nonneg hcum (by norm_num)) (by linarith)
          exact lt_min (by linarith) (by linarith)
        · norm_num
      simp only [allocAdjustments, List.mem_cons] at ha
      rcases ha with rfl | ha
      · refine ⟨?_, ?_⟩
        · dsimp only
          split_ifs
          · exact mul_nonneg (le_of_lt hn) (by linarith [hb.1])
          · exact mul_nonneg (le_of_lt hn) (by linarith [hb.2.1])
        · dsimp only
          exact mul_pos hb.2.2 hfm
      · have hcum' : 0 ≤ (if fe then cum + segmentEffort seg else cum) := by
          split_ifs
          · have := segmentEffort_nonneg seg (hsegs seg (by simp))
            linarith
          · exact hcum
        exact ih nats' _ hcum' (fun n hn' => hnats n (by simp [hn']))
          (fun g hg => hsegs g (by simp [hg])) a ha

/-- Steady fallback results deviate from the natural times by exactly zero. -/
theorem steadyResults_absdiff_sum (segs : List SegData) (nats : List NaturalResult) :
    (List.zipWith (fun (r : AllocResult) (n : NaturalResult) =>
      |r.segment_time - n.natural_time|) (steadyResults segs nats) nats).sum = 0 := by
  induction segs generalizing nats with
  | nil => cases nats <;> simp [steadyResults]
  | cons seg segs ih =>
    cases nats with
    | nil => simp [steadyResults]
    | cons nat nats' =>
      simp only [steadyResults, List.zipWith_cons_cons, List.sum_cons]
      rw [ih nats']
      simp

/-- When the cost-weighted capacity is not positive, every distributed adjustment
is zero. -/
theorem allocFinal_absdiff_sum_of_nonpos (faster : Bool) (D twc : ℚ)
    (h : ¬ twc > 0) :
    ∀ (adjs : List (ℚ × ℚ)) (segs : List SegData) (nats : List NaturalResult),
      (List.zipWith (fun (r : AllocResult) (n : NaturalResult) =>
        |r.segment_time - n.natural_time|)
        (allocFinal faster D twc segs nats adjs) nats).sum = 0 := by
  intro adjs
  induction adjs with
  | nil =>
    intro segs nats
    have h0 : allocFinal faster D twc segs nats [] = [] := by
      cases segs <;> cases nats <;> rfl
    rw [h0]
    simp
  | cons a as ih =>
    intro segs nats
    cases segs with
    | nil => simp [allocFinal]
    | cons seg segs' =>
      cases nats with
      | nil => simp [allocFinal]
      | cons nat nats' =>
        simp only [allocFinal, if_neg h, List.zipWith_cons_cons, List.sum_cons]
        rw [ih segs' nats']
        split_ifs <;> simp

/-- The distributed adjustments sum to at most the cost-weighted share bound
`(Σ capacity/cost) / twc × D`. -/
theorem allocFinal_absdiff_sum_le (faster : Bool) (D twc : ℚ)
    (hD : 0 ≤ D) (htwc : 0 < twc) :
    ∀ (adjs : List (ℚ × ℚ)) (segs : List SegData) (nats : List NaturalResult),
      (∀ a ∈ adjs, 0 ≤ a.1 ∧ 0 < a.2) →
      (List.zipWith (fun (r : AllocResult) (n : NaturalResult) =>
        |r.segment_time - n.natural_time|)
        (allocFinal faster D twc segs nats adjs) nats).sum ≤
      (adjs.map fun x => x.1 / x.2).sum / twc * D := by
  intro adjs
  induction adjs with
  | nil =>
    intro segs nats _
    have h0 : allocFinal faster D twc segs nats [] = [] := by
      cases segs <;> cases nats <;> rfl
    rw [h0]
    simp
  | cons a as ih =>
    intro segs nats hadj
    have ha := hadj a (by simp)
    have has : ∀ x ∈ as, 0 ≤ x.1 ∧ 0 < x.2 := fun x hx => hadj x (by simp [hx])
    have hsum : 0 ≤ ((a :: as).map fun x => x.1 / x.2).sum := by
      apply List.sum_nonneg
      intro x hx
      simp only [List.mem_map] at hx
      obtain ⟨y, hy, rfl⟩ := hx
      exact div_nonneg (hadj y hy).1 (le_of_lt (hadj y hy).2)
    cases segs with
    | nil =>
      have h0 : allocFinal faster D twc [] nats (a :: as) = [] := rfl
      rw [h0]
      simp only [List.zipWith_nil_left, List.sum_nil]
      exact mul_nonneg (div_nonneg hsum htwc.le) hD
    | cons seg segs' =>
      cases nats with
      | nil =>
        have h0 : allocFinal faster D twc (seg :: segs') [] (a :: as) = [] := rfl
        rw [h0]
        simp only [List.zipWith_nil_right, List.sum_nil]
        exact mul_nonneg (div_nonneg hsum htwc.le) hD
      | cons nat nats' =>
        simp only [allocFinal, if_pos htwc, List.zipWith_cons_cons, List.sum_cons]
        set amt := min (a.1 / a.2 / twc * D) a.1 with hamt
        have hamt0 : 0 ≤ amt :=
          le_min (mul_nonneg (div_nonneg (div_nonneg ha.1 ha.2.le) htwc.le) hD) ha.1
        have hhead : |(if faster then nat.natural_time - amt
            else nat.natural_time + amt) - nat.natural_time| = amt := by
          split_ifs
          · rw [show nat.natural_time - amt - nat.natural_time = -amt by ring,
              abs_neg, abs_of_nonneg hamt0]
          · rw [show nat.natural_time + amt - nat.natural_time = amt by ring,
              abs_of_nonneg hamt0]
        rw [hhead]
        have hheadle : amt ≤ a.1 / a.2 / twc * D := min_le_left _ _
        have htail := ih segs' nats' has
        have hexpand : ((a :: as).map fun x => x.1 / x.2).sum / twc * D =
            a.1 / a.2 / twc * D + (as.map fun x => x.1 / x.2).sum / twc * D := by
          simp only [List.map_cons, List.sum_cons]
          ring
        rw [hexpand]
        linarith

/-- C1: whenever the requested |ΔT| exceeds the fitness budget
`natural_total_time × fitness_budget[tier]`, the total allocated deviation
`Σ |segment_time − natural_time|` stays within that budget, for every route with
positive natural segment times and nonnegative geometry and every tier. -/
theorem c1_budget_clamping (target : ℚ) (segs : List SegData)
    (nats : List NaturalResult) (ca : ClimbingAbility) (fe : Bool)
    (fl : FitnessLevel) (s : ℚ)
    (hne : nats ≠ [])
    (hnat : ∀ n ∈ nats, 0 < n.natural_time)
    (hseg : ∀ g ∈ segs, 0 ≤ g.distance ∧ 0 ≤ g.elev_gain ∧ 0 ≤ g.elev_loss)
    (hs1 : s ≤ 1)
    (hbig : (nats.map (·.natural_time)).sum * fitnessBudgetOf fl <
      |(nats.map (·.natural_time)).sum - target|) :
    (List.zipWith (fun (r : AllocResult) (n : NaturalResult) =>
        |r.segment_time - n.natural_time|)
      (allocate_effort_to_target target segs nats ca fe fl s) nats).sum ≤
      (nats.map (·.natural_time)).sum * fitnessBudgetOf fl := by
  have hbudpos : 0 < fitnessBudgetOf fl := by cases fl <;> norm_num [fitnessBudgetOf]
  have hT : 0 < (nats.map (·.natural_time)).sum := by
    apply List.sum_pos
    · intro x hx
      simp only [List.mem_map] at hx
      obtain ⟨n, hn, rfl⟩ := hx
      exact hnat n hn
    · simpa using hne
  have hB : 0 < (nats.map (·.natural_time)).sum * fitnessBudgetOf fl :=
    mul_pos hT hbudpos
  simp only [allocate_effort_to_target]
  rw [if_neg hne]
  by_cases htol : |(nats.map (·.natural_time)).sum - target| < 1/2
  · rw [if_pos htol, steadyResults_absdiff_sum]
    exact hB.le
  · rw [if_neg htol]
    have hadj : ∀ a ∈ allocAdjustments
        (decide ((nats.map (·.natural_time)).sum - target > 0)) ca fe fl s segs nats 0,
        0 ≤ a.1 ∧ 0 < a.2 :=
      allocAdjustments_bounds _ ca fe fl s hs1 segs nats 0 (le_refl 0) hnat hseg
    by_cases hcap : ((allocAdjustments
        (decide ((nats.map (·.natural_time)).sum - target > 0)) ca fe fl s
        segs nats 0).map (·.1)).sum = 0
    · rw [if_pos hcap, steadyResults_absdiff_sum]
      exact hB.le
    · rw [if_neg hcap, if_pos hbig]
      set adjs := allocAdjustments
        (decide ((nats.map (·.natural_time)).sum - target > 0)) ca fe fl s
        segs nats 0 with hadjsdef
      set twc := (adjs.map fun a => a.1 / a.2).sum with htwcdef
      have htwc0 : 0 ≤ twc := by
        rw [htwcdef]
        apply List.sum_nonneg
        intro x hx
        simp only [List.mem_map] at hx
        obtain ⟨y, hy, rfl⟩ := hx
        exact div_nonneg (hadj y hy).1 (le_of_lt (hadj y hy).2)
      by_cases htwc : 0 < twc
      · have hmain := allocFinal_absdiff_sum_le
          (decide ((nats.map (·.natural_time)).sum - target > 0))
          ((nats.map (·.natural_time)).sum * fitnessBudgetOf fl) twc hB.le htwc
          adjs segs nats hadj
        rw [← htwcdef, div_self (ne_of_gt htwc), one_mul] at hmain
        exact hmain
      · rw [allocFinal_absdiff_sum_of_nonpos _ _ twc htwc adjs segs nats]
        exact hB.le

/-- C1 witness: one flat 10 km segment (natural 60 min), recreational budget
15 min, target 10 min (requested |ΔT| = 50): the allocated deviation is 12 min,
within the budget. -/
theorem c1_budget_clamping_witness :
    (List.zipWith (fun (r : AllocResult) (n : NaturalResult) =>
        |r.segment_time - n.natural_time|)
      (allocate_effort_to_target 10 [⟨10, 0, 0, .smooth_trail⟩] [⟨60, 6⟩]
        .moderate false .recreational (1/2)) [⟨60, 6⟩]).sum ≤
      (([⟨60, 6⟩] : List NaturalResult).map (·.natural_time)).sum *
        fitnessBudgetOf .recreational :=
  c1_budget_clamping 10 [⟨10, 0, 0, .smooth_trail⟩] [⟨60, 6⟩] .moderate false
    .recreational (1/2) (by norm_num) (by norm_num) (by norm_num) (by norm_num)
    (by norm_num [fitnessBudgetOf, abs_of_nonneg])

/-- After the tolerance band, `allocate_effort_to_target` depends on the target
only through the sign of ΔT and the clamped |ΔT|: two targets that agree on both
produce identical outputs. -/
theorem allocate_eq_of_same_effective (t1 t2 : ℚ) (segs : List SegData)
    (nats : List NaturalResult) (ca : ClimbingAbility) (fe : Bool)
    (fl : FitnessLevel) (s : ℚ)
    (h1 : ¬ |(nats.map (·.natural_time)).sum - t1| < 1/2)
    (h2 : ¬ |(nats.map (·.natural_time)).sum - t2| < 1/2)
    (hdir : ((nats.map (·.natural_time)).sum - t1 > 0) ↔
      ((nats.map (·.natural_time)).sum - t2 > 0))
    (heff : (if |(nats.map (·.natural_time)).sum - t1| >
          (nats.map (·.natural_time)).sum * fitnessBudgetOf fl
        then (nats.map (·.natural_time)).sum * fitnessBudgetOf fl
        else |(nats.map (·.natural_time)).sum - t1|) =
      (if |(nats.map (·.natural_time)).sum - t2| >
          (nats.map (·.natural_time)).sum * fitnessBudgetOf fl
        then (nats.map (·.natural_time)).sum * fitnessBudgetOf fl
        else |(nats.map (·.natural_time)).sum - t2|)) :
    allocate_effort_to_target t1 segs nats ca fe fl s =
      allocate_effort_to_target t2 segs nats ca fe fl s := by
  by_cases hne : nats = []
  · simp only [allocate_effort_to_target, if_pos hne]
  · simp only [allocate_effort_to_target]
    rw [if_neg hne, if_neg hne, if_neg h1, if_neg h2,
      decide_eq_decide.mpr hdir, heff]

/-- C7 (amended): when the requested deviation reaches or exceeds the fitness
budget, allocation still proceeds (no error) and behaves exactly as if the target
sat at the budget boundary — the clamped |ΔT| is used. The returned records carry
only `segment_time`, `required_pace` and `effort_level`: no flag marks the target
as not fully achievable (see the counterexample: an infeasible run's output is
identical to a feasible boundary run's output). -/
theorem c7_infeasible_target_clamped (target : ℚ) (segs : List SegData)
    (nats : List NaturalResult) (ca : ClimbingAbility) (fe : Bool)
    (fl : FitnessLevel) (s : ℚ)
    (hbud : 1/2 ≤ (nats.map (·.natural_time)).sum * fitnessBudgetOf fl) :
    ((nats.map (·.natural_time)).sum * fitnessBudgetOf fl ≤
        (nats.map (·.natural_time)).sum - target →
      allocate_effort_to_target target segs nats ca fe fl s =
        allocate_effort_to_target ((nats.map (·.natural_time)).sum -
          (nats.map (·.natural_time)).sum * fitnessBudgetOf fl) segs nats ca fe fl s) ∧
    ((nats.map (·.natural_time)).sum * fitnessBudgetOf fl ≤
        target - (nats.map (·.natural_time)).sum →
      allocate_effort_to_target target segs nats ca fe fl s =
        allocate_effort_to_target ((nats.map (·.natural_time)).sum +
          (nats.map (·.natural_time)).sum * fitnessBudgetOf fl) segs nats ca fe fl s) := by
  set T := (nats.map (·.natural_time)).sum with hTdef
  set B := T * fitnessBudgetOf fl with hBdef
  constructor
  · intro h
    apply allocate_eq_of_same_effective
    · rw [not_lt, abs_of_nonneg (by linarith : (0:ℚ) ≤ T - target)]
      linarith
    · rw [not_lt, show T - (T - B) = B by ring,
        abs_of_nonneg (by linarith : (0:ℚ) ≤ B)]
      linarith
    · constructor
      · intro _
        rw [show T - (T - B) = B by ring]
        linarith
      · intro _
        linarith
    · rw [show T - (T - B) = B by ring,
        abs_of_nonneg (by linarith : (0:ℚ) ≤ B), if_neg (lt_irrefl B)]
      by_cases hgt : |T - target| > B
      · rw [if_pos hgt]
      · rw [if_neg hgt]
        rw [abs_of_nonneg (by linarith : (0:ℚ) ≤ T - target)] at hgt ⊢
        exact le_antisymm (not_lt.mp hgt) h
  · intro h
    apply allocate_eq_of_same_effective
    · rw [not_lt, abs_of_nonpos (by linarith : T - target ≤ 0)]
      linarith
    · rw [not_lt, show T - (T + B) = -B by ring, abs_neg,
        abs_of_nonneg (by linarith : (0:ℚ) ≤ B)]
      linarith
    · constructor
      · intro hh
        exfalso
        linarith
      · intro hh
        exfalso
        rw [show T - (T + B) = -B by ring] at hh
        linarith
    · rw [show T - (T + B) = -B by ring, abs_neg,
        abs_of_nonneg (by linarith : (0:ℚ) ≤ B), if_neg (lt_irrefl B)]
      have habs : |T - target| = target - T := by
        rw [abs_of_nonpos (by linarith : T - target ≤ 0)]
        ring
      rw [habs]
      by_cases hgt : target - T > B
      · rw [if_pos hgt]
      · rw [if_neg hgt]
        exact le_antisymm (not_lt.mp hgt) h

/-- C7 counterexample to the original claim: an infeasible target (ΔT = 50,
budget 15) produces EXACTLY the same output records as the feasible
budget-boundary target (ΔT = 15) — so no flag or field of the result can
indicate that the target was not fully achievable. -/
theorem c7_counterexample :
    ((([⟨60, 6⟩] : List NaturalResult).map (·.natural_time)).sum *
        fitnessBudgetOf .recreational <
      |(([⟨60, 6⟩] : List NaturalResult).map (·.natural_time)).sum - 10|) ∧
    ¬ ((([⟨60, 6⟩] : List NaturalResult).map (·.natural_time)).sum *
        fitnessBudgetOf .recreational <
      |(([⟨60, 6⟩] : List NaturalResult).map (·.natural_time)).sum - 45|) ∧
    allocate_effort_to_target 10 [⟨10, 0, 0, .smooth_trail⟩] [⟨60, 6⟩] .moderate
        false .recreational (1/2) =
      allocate_effort_to_target 45 [⟨10, 0, 0, .smooth_trail⟩] [⟨60, 6⟩] .moderate
        false .recreational (1/2) := by
  refine ⟨by norm_num [fitnessBudgetOf, abs_of_nonneg],
    by norm_num [fitnessBudgetOf, abs_of_nonneg], ?_⟩
  norm_num [allocate_effort_to_target, allocAdjustments, allocFinal, steadyResults,
    get_terrain_effort_bounds, climbingCostOf, fitnessBudgetOf, fitnessFatigueOf,
    segmentEffort, abs_of_nonneg]

/-- C7 witness: the amended clamping behaviour at a concrete infeasible target
(ΔT = 50 against a budget of 15 on a one-segment route). -/
theorem c7_infeasible_target_clamped_witness :
    allocate_effort_to_target 10 [⟨10, 0, 0, .smooth_trail⟩] [⟨60, 6⟩] .moderate
        false .recreational (1/2) =
      allocate_effort_to_target
        ((([⟨60, 6⟩] : List NaturalResult).map (·.natural_time)).sum -
          (([⟨60, 6⟩] : List NaturalResult).map (·.natural_time)).sum *
            fitnessBudgetOf .recreational)
        [⟨10, 0, 0, .smooth_trail⟩] [⟨60, 6⟩] .moderate false .recreational (1/2) :=
  (c7_infeasible_target_clamped 10 [⟨10, 0, 0, .smooth_trail⟩] [⟨60, 6⟩] .moderate
    false .recreational (1/2) (by norm_num [fitnessBudgetOf])).1
    (by norm_num [fitnessBudgetOf])

/-- C6 (code bug in the source): on a route containing a zero-distance segment the
natural pacing gives that segment `natural_time = 0` (first conjunct), and then
for any target with |ΔT| ≥ 0.5 the allocator's effort-label test
`segment_adjustment / natural_time >= 0.10` (app.py lines 1291/1295) divides by
that zero natural time — Python raises `ZeroDivisionError`, although the guarded
division two lines above (`adjustment_pct`) shows the zero case was meant to be
handled. The second conjunct certifies that the replayed control flow reaches an
unguarded division with a zero denominator. -/
theorem c6_zero_distance_division_by_zero :
    (calculate_natural_pacing (fun x _ => x)
      [⟨0, 0, 0, .smooth_trail⟩, ⟨10, 0, 0, .smooth_trail⟩] 6 .moderate false
      .recreational (1/2)).head? = some ⟨0, 6⟩ ∧
    ¬ allocateDivisionsSafe 50
      [⟨0, 0, 0, .smooth_trail⟩, ⟨10, 0, 0, .smooth_trail⟩]
      (calculate_natural_pacing (fun x _ => x)
        [⟨0, 0, 0, .smooth_trail⟩, ⟨10, 0, 0, .smooth_trail⟩] 6 .moderate false
        .recreational (1/2)) .moderate false .recreational (1/2) := by
  constructor
  · norm_num [calculate_natural_pacing, naturalPacingLoop, adjust_pace_for_elevation]
  · norm_num [allocateDivisionsSafe, calculate_natural_pacing, naturalPacingLoop,
      adjust_pace_for_elevation, adjustedSegmentTime, baseSegmentTime,
      horizontalTime, climbTime, descentTimeSavings, segmentTerrainFactor,
      calculate_terrain_efficiency_factor, gradientOf, fatigueMultiplier,
      paceWithClimbing, terrainFactorOf, TERRAIN_GRADIENT_GAMMA,
      TERRAIN_CLIMB_FACTOR, TERRAIN_DESCENT_FACTOR, climbEfficiency,
      gradeEfficiencyBase, calculate_vertical_speed, verticalSpeedOf,
      allocAdjustments, get_terrain_effort_bounds, climbingCostOf,
      fitnessFatigueOf, segmentEffort, abs_of_nonneg]
    simp

/-- The inline `adjustments` triples `(natural_time, capacity, total_cost)` built
by `simulate_push_segments` inside `calculate_effort_thresholds` (speed-up
direction): the capacity is `natural_time × (1 − min_mult)` and the cumulative
km-effort is recomputed for each segment as `sum over segments_data[:i]`
(strictly before the segment), exactly as the source's slice expression does. -/
def simPushAdjustments (ca : ClimbingAbility) (fe : Bool) (fl : FitnessLevel)
    (s : ℚ) (segs0 : List SegData) :
    List SegData → List NaturalResult → ℕ → List (ℚ × ℚ × ℚ)
  | seg :: segs, nat :: nats, i =>
    let bounds := get_terrain_effort_bounds seg.elev_gain seg.elev_loss
      seg.distance ca s
    let capacity := nat.natural_time * (1 - bounds.1)
    let cum := ((segs0.take i).map segmentEffort).sum
    let fatigue_multiplier :=
      if fe then
        min (1 + cum / 100 * (fitnessFatigueOf fl - 1)) (fitnessFatigueOf fl)
      else 1
    let total_cost := bounds.2.2 * fatigue_multiplier
    (nat.natural_time, capacity, total_cost) ::
      simPushAdjustments ca fe fl s segs0 segs nats (i + 1)
  | _, _, _ => []

/-- The analogous triples for `simulate_protect_segments` (slow-down direction):
capacity `natural_time × (max_mult − 1)`, same cost computation. -/
def simProtectAdjustments (ca : ClimbingAbility) (fe : Bool) (fl : FitnessLevel)
    (s : ℚ) (segs0 : List SegData) :
    List SegData → List NaturalResult → ℕ → List (ℚ × ℚ × ℚ)
  | seg :: segs, nat :: nats, i =>
    let bounds := get_terrain_effort_bounds seg.elev_gain seg.elev_loss
      seg.distance ca s
    let capacity := nat.natural_time * (bounds.2.1 - 1)
    let cum := ((segs0.take i).map segmentEffort).sum
    let fatigue_multiplier :=
      if fe then
        min (1 + cum / 100 * (fitnessFatigueOf fl - 1)) (fitnessFatigueOf fl)
      else 1
    let total_cost := bounds.2.2 * fatigue_multiplier
    (nat.natural_time, capacity, total_cost) ::
      simProtectAdjustments ca fe fl s segs0 segs nats (i + 1)
  | _, _, _ => []

/-- `simulate_push_segments` from `calculate_effort_thresholds`: the fraction of
segments that would receive a `push` label at the probed target time. -/
def simulate_push_segments (segs : List SegData) (nats : List NaturalResult)
    (ca : ClimbingAbility) (fe : Bool) (fl : FitnessLevel) (s : ℚ)
    (natural_total_time target_time_minutes : ℚ) : ℚ :=
  let delta_t := natural_total_time - target_time_minutes
  if delta_t ≤ 0 then 0
  else
    let abs_delta_t0 := |delta_t|
    let max_total_deviation := natural_total_time * fitnessBudgetOf fl
    let abs_delta_t :=
      if abs_delta_t0 > max_total_deviation then max_total_deviation else abs_delta_t0
    let adjustments := simPushAdjustments ca fe fl s segs segs nats 0
    let total_weighted_capacity := (adjustments.map fun a =>
      if 0 < a.2.2 ∧ 0 < a.2.1 then a.2.1 / a.2.2 else 0).sum
    if total_weighted_capacity = 0 then 0
    else
      let segments_at_threshold := adjustments.countP fun a =>
        decide (0 < a.2.2) && decide (0 < a.2.1) &&
          decide (min (abs_delta_t * (a.2.1 / a.2.2 / total_weighted_capacity))
            a.2.1 / a.1 ≥ 10/100)
      if 0 < adjustments.length then
        (segments_at_threshold : ℚ) / (adjustments.length : ℚ)
      else 0

/-- `simulate_protect_segments` from `calculate_effort_thresholds`. -/
def simulate_protect_segments (segs : List SegData) (nats : List NaturalResult)
    (ca : ClimbingAbility) (fe : Bool) (fl : FitnessLevel) (s : ℚ)
    (natural_total_time target_time_minutes : ℚ) : ℚ :=
  let delta_t := natural_total_time - target_time_minutes
  if delta_t ≥ 0 then 0
  else
    let abs_delta_t0 := |delta_t|
    let max_total_deviation := natural_total_time * fitnessBudgetOf fl
    let abs_delta_t :=
      if abs_delta_t0 > max_total_deviation then max_total_deviation else abs_delta_t0
    let adjustments := simProtectAdjustments ca fe fl s segs segs nats 0
    let total_weighted_capacity := (adjustments.map fun a =>
      if 0 < a.2.2 ∧ 0 < a.2.1 then a.2.1 / a.2.2 else 0).sum
    if total_weighted_capacity = 0 then 0
    else
      let segments_at_threshold := adjustments.countP fun a =>
        decide (0 < a.2.2) && decide (0 < a.2.1) &&
          decide (min (abs_delta_t * (a.2.1 / a.2.2 / total_weighted_capacity))
            a.2.1 / a.1 ≥ 10/100)
      if 0 < adjustments.length then
        (segments_at_threshold : ℚ) / (adjustments.length : ℚ)
      else 0

/-- The push-side 20-iteration binary search of `calculate_effort_thresholds`:
break and return the midpoint when the push fraction is within 0.05 of 50%,
move `high` down when under 50%, `low` up when over; if the loop completes, the
`for ... else` clause returns the midpoint of the final range. -/
def pushThresholdSearch (f : ℚ → ℚ) : ℕ → ℚ → ℚ → ℚ
  | 0, low, high => (low + high) / 2
  | n + 1, low, high =>
    let mid := (low + high) / 2
    let pct := f mid
    if |pct - 1/2| < 5/100 then mid
    else if pct < 1/2 then pushThresholdSearch f n low mid
    else pushThresholdSearch f n mid high

/-- The protect-side binary search (branch directions mirrored). -/
def protectThresholdSearch (f : ℚ → ℚ) : ℕ → ℚ → ℚ → ℚ
  | 0, low, high => (low + high) / 2
  | n + 1, low, high =>
    let mid := (low + high) / 2
    let pct := f mid
    if |pct - 1/2| < 5/100 then mid
    else if pct < 1/2 then protectThresholdSearch f n mid high
    else protectThresholdSearch f n low mid

/-- The result dict of `calculate_effort_thresholds`. -/
structure EffortThresholds where
  natural_time_minutes : ℚ
  push_threshold_minutes : ℚ
  protect_threshold_minutes : ℚ
deriving DecidableEq

/-- `calculate_effort_thresholds` from app.py: `None` on an empty result list or a
non-positive natural total time, otherwise the two binary-searched thresholds and
the natural time, each with the fixed checkpoint dwell `num_checkpoints ×
avg_cp_time` added. (The source's `base_pace` parameter is never read; its final
`math.isnan` validation cannot fire in exact rational arithmetic.) -/
def calculate_effort_thresholds (nats : List NaturalResult) (segs : List SegData)
    (ca : ClimbingAbility) (fe : Bool) (fl : FitnessLevel) (s : ℚ)
    (num_checkpoints : ℕ) (avg_cp_time : ℚ) : Option EffortThresholds :=
  if nats = [] then none
  else
    let natural_total_time := (nats.map (·.natural_time)).sum
    if natural_total_time ≤ 0 then none
    else
      let total_cp_time := (num_checkpoints : ℚ) * avg_cp_time
      let push_threshold := pushThresholdSearch
        (simulate_push_segments segs nats ca fe fl s natural_total_time) 20
        (natural_total_time * (1/2)) natural_total_time
      let protect_threshold := protectThresholdSearch
        (simulate_protect_segments segs nats ca fe fl s natural_total_time) 20
        natural_total_time (natural_total_time * (3/2))
      some ⟨natural_total_time + total_cp_time, push_threshold + total_cp_time,
        protect_threshold + total_cp_time⟩

/-- The push search always returns a value strictly inside its initial range. -/
theorem pushThresholdSearch_bounds (f : ℚ → ℚ) :
    ∀ (n : ℕ) (low high : ℚ), low < high →
      low < pushThresholdSearch f n low high ∧
      pushThresholdSearch f n low high < high := by
  intro n
  induction n with
  | zero =>
    intro low high h
    constructor <;> · simp only [pushThresholdSearch]; linarith
  | succ n ih =>
    intro low high h
    simp only [pushThresholdSearch]
    split_ifs
    · constructor <;> linarith
    · have hrec := ih low ((low + high) / 2) (by linarith)
      exact ⟨hrec.1, by linarith [hrec.2]⟩
    · have hrec := ih ((low + high) / 2) high (by linarith)
      exact ⟨by linarith [hrec.1], hrec.2⟩

/-- The protect search always returns a value strictly inside its initial range. -/
theorem protectThresholdSearch_bounds (f : ℚ → ℚ) :
    ∀ (n : ℕ) (low high : ℚ), low < high →
      low < protectThresholdSearch f n low high ∧
      protectThresholdSearch f n low high < high := by
  intro n
  induction n with
  | zero =>
    intro low high h
    constructor <;> · simp only [protectThresholdSearch]; linarith
  | succ n ih =>
    intro low high h
    simp only [protectThresholdSearch]
    split_ifs
    · constructor <;> linarith
    · have hrec := ih ((low + high) / 2) high (by linarith)
      exact ⟨by linarith [hrec.1], hrec.2⟩
    · have hrec := ih low ((low + high) / 2) (by linarith)
      exact ⟨hrec.1, by linarith [hrec.2]⟩

/-- C8: whenever `calculate_effort_thresholds` returns a result, the returned
total-race times satisfy `push_threshold < natural_time < protect_threshold`
(each including the checkpoint dwell `num_checkpoints × avg_cp_time`); and it
returns `None` whenever the natural total time is non-positive (the NaN guard of
the source cannot fire in exact arithmetic), so callers never receive a
degenerate value. -/
theorem c8_threshold_sanity (nats : List NaturalResult) (segs : List SegData)
    (ca : ClimbingAbility) (fe : Bool) (fl : FitnessLevel) (s : ℚ)
    (ncp : ℕ) (acp : ℚ) :
    (∀ r, calculate_effort_thresholds nats segs ca fe fl s ncp acp = some r →
      r.push_threshold_minutes < r.natural_time_minutes ∧
      r.natural_time_minutes < r.protect_threshold_minutes) ∧
    ((nats.map (·.natural_time)).sum ≤ 0 →
      calculate_effort_thresholds nats segs ca fe fl s ncp acp = none) := by
  constructor
  · intro r hr
    simp only [calculate_effort_thresholds] at hr
    by_cases hne : nats = []
    · rw [if_pos hne] at hr
      exact absurd hr (by simp)
    · rw [if_neg hne] at hr
      by_cases hT : (nats.map (·.natural_time)).sum ≤ 0
      · rw [if_pos hT] at hr
        exact absurd hr (by simp)
      · rw [if_neg hT] at hr
        have hTpos : 0 < (nats.map (·.natural_time)).sum := lt_of_not_le hT
        have hp := pushThresholdSearch_bounds
          (simulate_push_segments segs nats ca fe fl s ((nats.map (·.natural_time)).sum))
          20 ((nats.map (·.natural_time)).sum * (1/2)) ((nats.map (·.natural_time)).sum)
          (by linarith)
        have hq := protectThresholdSearch_bounds
          (simulate_protect_segments segs nats ca fe fl s ((nats.map (·.natural_time)).sum))
          20 ((nats.map (·.natural_time)).sum) ((nats.map (·.natural_time)).sum * (3/2))
          (by linarith)
        have hr' := Option.some.inj hr
        rw [← hr']
        constructor
        · simp only
          linarith [hp.2]
        · simp only
          linarith [hq.1]
  · intro hT
    simp only [calculate_effort_thresholds]
    by_cases hne : nats = []
    · rw [if_pos hne]
    · rw [if_neg hne, if_pos hT]

/-- One unfolding step of the push search (the `let` bindings expanded). -/
theorem pushThresholdSearch_succ (f : ℚ → ℚ) (n : ℕ) (low high : ℚ) :
    pushThresholdSearch f (n + 1) low high =
      if |f ((low + high) / 2) - 1/2| < 5/100 then (low + high) / 2
      else if f ((low + high) / 2) < 1/2 then
        pushThresholdSearch f n low ((low + high) / 2)
      else pushThresholdSearch f n ((low + high) / 2) high := rfl

/-- One unfolding step of the protect search (the `let` bindings expanded). -/
theorem protectThresholdSearch_succ (f : ℚ → ℚ) (n : ℕ) (low high : ℚ) :
    protectThresholdSearch f (n + 1) low high =
      if |f ((low + high) / 2) - 1/2| < 5/100 then (low + high) / 2
      else if f ((low + high) / 2) < 1/2 then
        protectThresholdSearch f n ((low + high) / 2) high
      else protectThresholdSearch f n low ((low + high) / 2) := rfl

set_option maxHeartbeats 1000000 in
/-- C8 witness: a concrete two-segment route (steep climb + flat, conservative
climber, untrained tier, no checkpoint dwell) on which the threshold search
returns `(natural, push, protect) = (120, 90, 131.25)` minutes, strictly ordered. -/
theorem c8_threshold_sanity_witness :
    calculate_effort_thresholds [⟨60, 6⟩, ⟨60, 6⟩]
        [⟨10, 1000, 0, .smooth_trail⟩, ⟨10, 0, 0, .smooth_trail⟩] .conservative
        false .untrained (1/2) 0 0 = some ⟨120, 90, 525/4⟩ ∧
    ((90:ℚ) < 120 ∧ (120:ℚ) < 525/4) := by
  have hT : (([⟨60, 6⟩, ⟨60, 6⟩] : List NaturalResult).map (·.natural_time)).sum
      = 120 := by norm_num
  have hf90 : simulate_push_segments
      [⟨10, 1000, 0, .smooth_trail⟩, ⟨10, 0, 0, .smooth_trail⟩] [⟨60, 6⟩, ⟨60, 6⟩]
      .conservative false .untrained (1/2) 120 90 = 1/2 := by
    norm_num [simulate_push_segments, simPushAdjustments, get_terrain_effort_bounds,
      climbingCostOf, fitnessBudgetOf, fitnessFatigueOf, segmentEffort,
      abs_of_nonneg, List.countP_cons, List.countP_nil]
  have hg150 : simulate_protect_segments
      [⟨10, 1000, 0, .smooth_trail⟩, ⟨10, 0, 0, .smooth_trail⟩] [⟨60, 6⟩, ⟨60, 6⟩]
      .conservative false .untrained (1/2) 120 150 = 1 := by
    norm_num [simulate_protect_segments, simProtectAdjustments,
      get_terrain_effort_bounds, climbingCostOf, fitnessBudgetOf, fitnessFatigueOf,
      segmentEffort, abs_of_nonpos, List.countP_cons, List.countP_nil]
  have hg135 : simulate_protect_segments
      [⟨10, 1000, 0, .smooth_trail⟩, ⟨10, 0, 0, .smooth_trail⟩] [⟨60, 6⟩, ⟨60, 6⟩]
      .conservative false .untrained (1/2) 120 135 = 1 := by
    norm_num [simulate_protect_segments, simProtectAdjustments,
      get_terrain_effort_bounds, climbingCostOf, fitnessBudgetOf, fitnessFatigueOf,
      segmentEffort, abs_of_nonpos, List.countP_cons, List.countP_nil]
  have hg1275 : simulate_protect_segments
      [⟨10, 1000, 0, .smooth_trail⟩, ⟨10, 0, 0, .smooth_trail⟩] [⟨60, 6⟩, ⟨60, 6⟩]
      .conservative false .untrained (1/2) 120 (255/2) = 0 := by
    norm_num [simulate_protect_segments, simProtectAdjustments,
      get_terrain_effort_bounds, climbingCostOf, fitnessBudgetOf, fitnessFatigueOf,
      segmentEffort, abs_of_nonpos, List.countP_cons, List.countP_nil]
  have hg13125 : simulate_protect_segments
      [⟨10, 1000, 0, .smooth_trail⟩, ⟨10, 0, 0, .smooth_trail⟩] [⟨60, 6⟩, ⟨60, 6⟩]
      .conservative false .untrained (1/2) 120 (525/4) = 1/2 := by
    norm_num [simulate_protect_segments, simProtectAdjustments,
      get_terrain_effort_bounds, climbingCostOf, fitnessBudgetOf, fitnessFatigueOf,
      segmentEffort, abs_of_nonpos, List.countP_cons, List.countP_nil]
  have hy : |(1:ℚ)/2 - 1/2| < 5/100 := by norm_num
  have hn1 : ¬ |(1:ℚ) - 1/2| < 5/100 := by
    rw [abs_of_nonneg (by norm_num : (0:ℚ) ≤ 1 - 1/2)]
    norm_num
  have hn0 : ¬ |(0:ℚ) - 1/2| < 5/100 := by
    rw [abs_of_nonpos (by norm_num : (0:ℚ) - 1/2 ≤ 0)]
    norm_num
  have hpush : pushThresholdSearch (simulate_push_segments
      [⟨10, 1000, 0, .smooth_trail⟩, ⟨10, 0, 0, .smooth_trail⟩] [⟨60, 6⟩, ⟨60, 6⟩]
      .conservative false .untrained (1/2) 120) 20 (120 * (1/2)) 120 = 90 := by
    rw [show (20:ℕ) = 19 + 1 from rfl, pushThresholdSearch_succ,
      show ((120:ℚ) * (1/2) + 120) / 2 = 90 by norm_num, hf90, if_pos hy]
  have hprot : protectThresholdSearch (simulate_protect_segments
      [⟨10, 1000, 0, .smooth_trail⟩, ⟨10, 0, 0, .smooth_trail⟩] [⟨60, 6⟩, ⟨60, 6⟩]
      .conservative false .untrained (1/2) 120) 20 120 (120 * (3/2)) = 525/4 := by
    rw [show (20:ℕ) = 19 + 1 from rfl, protectThresholdSearch_succ,
      show ((120:ℚ) + 120 * (3/2)) / 2 = 150 by norm_num, hg150,
      if_neg hn1, if_neg (by norm_num : ¬ (1:ℚ) < 1/2),
      show (19:ℕ) = 18 + 1 from rfl, protectThresholdSearch_succ,
      show ((120:ℚ) + 150) / 2 = 135 by norm_num, hg135,
      if_neg hn1, if_neg (by norm_num : ¬ (1:ℚ) < 1/2),
      show (18:ℕ) = 17 + 1 from rfl, protectThresholdSearch_succ,
      show ((120:ℚ) + 135) / 2 = 255/2 by norm_num, hg1275,
      if_neg hn0, if_pos (by norm_num : (0:ℚ) < 1/2),
      show (17:ℕ) = 16 + 1 from rfl, protectThresholdSearch_succ,
      show ((255:ℚ)/2 + 135) / 2 = 525/4 by norm_num, hg13125, if_pos hy]
  have heval : calculate_effort_thresholds [⟨60, 6⟩, ⟨60, 6⟩]
      [⟨10, 1000, 0, .smooth_trail⟩, ⟨10, 0, 0, .smooth_trail⟩] .conservative
      false .untrained (1/2) 0 0 = some ⟨120, 90, 525/4⟩ := by
    simp only [calculate_effort_thresholds]
    rw [if_neg (by simp : ¬ ([⟨60, 6⟩, ⟨60, 6⟩] : List NaturalResult) = []), hT,
      if_neg (by norm_num : ¬ (120:ℚ) ≤ 0), hpush, hprot]
    norm_num
  refine ⟨heval, ?_⟩
  have hb := (c8_threshold_sanity [⟨60, 6⟩, ⟨60, 6⟩]
    [⟨10, 1000, 0, .smooth_trail⟩, ⟨10, 0, 0, .smooth_trail⟩] .conservative
    false .untrained (1/2) 0 0).1 ⟨120, 90, 525/4⟩ heval
  simpa using hb

/-- Generalised agreement between the threshold simulator's slice-based cumulative
effort and the allocator's running accumulator: processing the suffix `suf` with
the simulator's index `pre.length` matches the allocator started from any
accumulator that equals the prefix km-effort whenever fatigue is enabled. -/
theorem simPush_allocAdjustments_aux (ca : ClimbingAbility) (fe : Bool)
    (fl : FitnessLevel) (s : ℚ) :
    ∀ (suf : List SegData) (nats : List NaturalResult) (pre : List SegData) (c : ℚ),
      (fe = true → c = (pre.map segmentEffort).sum) →
      (simPushAdjustments ca fe fl s (pre ++ suf) suf nats pre.length).map
        (fun a => (a.2.1, a.2.2)) =
      allocAdjustments true ca fe fl s suf nats c := by
  intro suf
  induction suf with
  | nil =>
    intro nats pre c _
    cases nats <;> rfl
  | cons seg suf' ih =>
    intro nats pre c hc
    cases nats with
    | nil => rfl
    | cons nat nats' =>
      simp only [simPushAdjustments, allocAdjustments, List.map_cons]
      have htake : ((pre ++ seg :: suf').take pre.length) = pre := by
        rw [List.take_left]
      congr 1
      · cases fe with
        | false => simp
        | true =>
          rw [hc rfl, htake]
          simp
      · have happ : pre ++ seg :: suf' = (pre ++ [seg]) ++ suf' := by simp
        have hlen : pre.length + 1 = (pre ++ [seg]).length := by simp
        rw [happ, hlen]
        apply ih nats' (pre ++ [seg])
        intro hfe
        rw [if_pos hfe, hc hfe]
        simp [List.sum_append]

/-- C10: for every segment list and athlete parameter set, the per-segment
speed-up capacity and total effort cost computed inline by `simulate_push_segments`
(slice-based cumulative effort, strictly before each segment) are exactly the
capacity and cost that `allocate_effort_to_target`'s first loop computes for the
same segment in the speed-up direction (running accumulator, also strictly before
each segment). -/
theorem c10_threshold_allocator_agreement (ca : ClimbingAbility) (fe : Bool)
    (fl : FitnessLevel) (s : ℚ) (segs : List SegData)
    (nats : List NaturalResult) :
    (simPushAdjustments ca fe fl s segs segs nats 0).map (fun a => (a.2.1, a.2.2)) =
      allocAdjustments true ca fe fl s segs nats 0 := by
  have h := simPush_allocAdjustments_aux ca fe fl s segs nats [] 0 (fun _ => by simp)
  simpa using h
